import Mathlib

/-!
Verification of the session load-balancer subsystem (`utils/load_balancer.py`)
and the flood-wait retry wrapper (`utils/floodwait.py`).

Shallow embedding conventions:
* Python floats are rationals (`ℚ`); `time.time()` is an explicit `now : ℚ`
  parameter (all clock reads inside one call are modelled as the same instant).
* Python dicts are association lists `List (String × β)` with insertion-order
  append semantics (`dinsert` updates in place when the key exists, appends
  otherwise), and `alookup` is `d[k]` / `d.get(k)`.
* The heterogeneous per-session metrics dict is the structure `Metrics`; a key
  that may be absent is an `Option` field (absent = `none`).
* `random.uniform` outcomes are explicit parameters.
* Raising is modelled with `Except PyErr`; methods that mutate before raising
  return the mutated state next to the `Except` value.
* The source defines `get_best_client` twice; Python keeps the later
  (purpose-keyed) definition, which is the one embedded here.
* `check_session_health` and `check_all_sessions_health` are invoked but
  defined nowhere in the repository, so those call sites are embedded as
  `AttributeError` raises.
-/

inductive PyErr where
  | attributeError
  | keyError
  | zeroDivisionError
  deriving DecidableEq, Repr

/-- Association-list lookup, i.e. Python `d[k]` / `d.get(k)`. -/
def alookup {β : Type} : List (String × β) → String → Option β
  | [], _ => none
  | (k, v) :: rest, key => if k = key then some v else alookup rest key

/-- Python `d[k] = v`: replace in place when present, append otherwise. -/
def dinsert {β : Type} : List (String × β) → String → β → List (String × β)
  | [], k, v => [(k, v)]
  | (k0, v0) :: rest, k, v =>
    if k0 = k then (k, v) :: rest else (k0, v0) :: dinsert rest k v

/-- Python `del d[k]`. -/
def ddelete {β : Type} (d : List (String × β)) (k : String) : List (String × β) :=
  d.filter (fun kv => kv.1 ≠ k)

/-- Entry appended to `metrics["overload_history"]` by `detect_session_overload`. -/
structure OverloadEntry where
  timestamp : ℚ
  score : ℚ
  error_rate : ℚ
  flood_waits : Nat
  consecutive_errors : Int
  deriving DecidableEq, Repr

/-- Entry appended to `self.session_cooldown_history[phone]`. -/
structure CooldownRec where
  timestamp : ℚ
  duration : ℚ
  error_type : String
  deriving DecidableEq, Repr

/-- The per-session metrics dict.  Each field that the source may leave absent
is an `Option`; `none` means the key is not in the dict. -/
structure Metrics where
  operations : Option Nat := none
  errors : Option Nat := none
  flood_waits : Option Nat := none
  total_flood_wait_time : Option ℚ := none
  last_flood_wait : Option ℚ := none
  response_times : Option (List (String × List (ℚ × ℚ))) := none
  error_timestamps : Option (List ℚ) := none
  health_score : Option ℚ := none
  consecutive_errors : Option Int := none
  overload_history : Option (List OverloadEntry) := none
  operation_timestamps : Option (List ℚ) := none
  operations_by_type : Option (List (String × List ℚ)) := none
  successful_ops_since_last_issue : Option Nat := none
  current_overload_score : Option ℚ := none
  operation_rate_history : Option (List Nat) := none
  status : Option String := none
  cooling_start : Option ℚ := none
  cooling_duration : Option ℚ := none
  cooling_end : Option ℚ := none
  cooling_reason : Option String := none
  user_type : Option String := none
  critical_operation : Option Bool := none
  consistent_good_behavior : Option Bool := none
  good_behavior_streak : Option Nat := none
  deriving DecidableEq, Repr

/-- The empty dict `{}` created by `record_operation` for an unknown phone. -/
def Metrics.empty : Metrics := {}

/-- A purpose pool: `self.sessions[purpose] = {"primary": [...], "backup": [...]}`. -/
structure Pool where
  primary : List String
  backup : List String
  deriving DecidableEq, Repr

/-- The mutable fields of the `LoadBalancer` object that the embedded methods
touch.  Clients are identified with their phone string (the claims only ever
inspect which phone, if any, is selected). -/
structure LBState where
  active_clients : List String := []
  session_metrics : List (String × Metrics) := []
  sessions : List (String × Pool) := []
  session_cooldowns : List (String × ℚ) := []
  flood_wait_times : List (String × List (ℚ × ℚ)) := []
  session_cooldown_history : List (String × List CooldownRec) := []
  session_priorities : List (String × Int) := []
  last_health_check : ℚ := 0
  last_priority_update : ℚ := 0
  deriving DecidableEq, Repr

/-- The metrics dict installed by `register_client` for a new phone. -/
def registerMetrics : Metrics :=
  { operations := some 0
    errors := some 0
    flood_waits := some 0
    total_flood_wait_time := some 0
    last_flood_wait := some 0
    response_times := some []
    error_timestamps := some []
    health_score := some 1
    consecutive_errors := some 0
    overload_history := some [] }

/-- `register_client(phone, client, purpose, is_primary)`. -/
def register_client (s : LBState) (phone : String) (purpose : String)
    (is_primary : Bool) : LBState :=
  let s1 := { s with active_clients :=
    if phone ∈ s.active_clients then s.active_clients else s.active_clients ++ [phone] }
  let s2 := if (alookup s1.session_metrics phone).isSome then s1
    else { s1 with session_metrics := dinsert s1.session_metrics phone registerMetrics }
  let pool := (alookup s2.sessions purpose).getD ⟨[], []⟩
  let pool' :=
    if is_primary then
      if phone ∈ pool.primary then pool else { pool with primary := pool.primary ++ [phone] }
    else
      if phone ∈ pool.backup then pool else { pool with backup := pool.backup ++ [phone] }
  { s2 with sessions := dinsert s2.sessions purpose pool' }

/-- `is_in_cooldown(phone)`: lazily deletes an expired entry. -/
def is_in_cooldown (s : LBState) (phone : String) (now : ℚ) : LBState × Bool :=
  match alookup s.session_cooldowns phone with
  | none => (s, false)
  | some cooldown_until =>
    if now > cooldown_until then
      ({ s with session_cooldowns := ddelete s.session_cooldowns phone }, false)
    else
      (s, true)

/-- `self.cooldown_parameters["severity_weights"].get(error_type, ...["other"])`. -/
def severityWeight : String → ℚ
  | "flood_wait" => 6/5
  | "timeout" => 11/10
  | "network" => 1
  | "auth" => 13/10
  | _ => 4/5

/-- `self.baseline_response_times`. -/
def baselineRT : String → Option ℚ
  | "default" => some 1
  | "message" => some (6/5)
  | "join" => some 2
  | "admin" => some (3/2)
  | "scrape" => some (5/2)
  | _ => none

/-- `calculate_adaptive_cooldown(phone, error_type)`.  The `random.uniform(0.8, 1.2)`
jitter outcome is the explicit parameter `jitter`.  The pattern-based step
divides `deviation / avg_interval`, which raises `ZeroDivisionError` in Python
when the average interval is zero; that raise happens before any state
mutation, so the error case carries no state. -/
def calculate_adaptive_cooldown (s : LBState) (phone : String) (error_type : String)
    (now : ℚ) (jitter : ℚ) : Except PyErr (LBState × Int) :=
  match alookup s.session_metrics phone with
  | none => .ok (s, 300)
  | some metrics =>
    let base_cooldown : ℚ := 300
    let phone_history := (alookup s.session_cooldown_history phone).getD []
    let cooldown0 : ℚ := base_cooldown
    -- 1. Escalation based on repeated issues
    let cooldown1 :=
      if phone_history.length ≥ 2 then
        let recent_cooldowns := phone_history.filter (fun c => now - c.timestamp ≤ 21600)
        if recent_cooldowns.length ≥ 3 then
          let escalation_count := min recent_cooldowns.length 5
          cooldown0 * (3/2 : ℚ) ^ (escalation_count - 1)
        else cooldown0
      else cooldown0
    -- 2. Error type weighting
    let cooldown2 := cooldown1 * severityWeight error_type
    -- 3. FloodWait-based adjustment
    let cooldown3 :=
      match metrics.last_flood_wait with
      | some lfw =>
        if lfw > 0 then
          let recent_flood_waits :=
            (((alookup s.flood_wait_times phone).getD []).filter
              (fun p => now - p.1 ≤ 3600)).map Prod.snd
          match recent_flood_waits.max? with
          | some max_flood_wait =>
            let flood_cooldown := max (max_flood_wait * 2) base_cooldown
            max cooldown2 flood_cooldown
          | none => cooldown2
        else cooldown2
      | none => cooldown2
    -- 4. Pattern-based adjustment (can raise ZeroDivisionError)
    let patternStep : Except PyErr ℚ :=
      match metrics.overload_history with
      | some oh =>
        if oh.length ≥ 3 then
          let timestamps := oh.map OverloadEntry.timestamp
          let intervals := (timestamps.zip timestamps.tail).map (fun p => p.2 - p.1)
          let avg_interval := intervals.sum / (intervals.length : ℚ)
          let deviation := (intervals.map (fun i => |i - avg_interval|)).sum / (intervals.length : ℚ)
          if avg_interval = 0 then .error .zeroDivisionError
          else
            let consistency := 1 - min (deviation / avg_interval) (1/2)
            if consistency > 7/10 then
              let pattern_cooldown := avg_interval * (6/5)
              .ok (max cooldown3 pattern_cooldown)
            else .ok cooldown3
        else .ok cooldown3
      | none => .ok cooldown3
    match patternStep with
    | .error e => .error e
    | .ok cooldown4 =>
      -- 5. Recovery-based de-escalation (replaces the accumulated value)
      let successful_ops := metrics.successful_ops_since_last_issue.getD 0
      let cooldown5 :=
        if successful_ops ≥ 10 ∧ phone_history ≠ [] then
          match phone_history.getLast? with
          | some last => max base_cooldown (last.duration * (4/5))
          | none => cooldown4
        else cooldown4
      -- 6. Jitter, then clamp to [base, max]
      let cooldown6 := cooldown5 * jitter
      let cooldown7 := min (max cooldown6 300) 3600
      -- Record in history, trim to the last 10
      let hist := ((alookup s.session_cooldown_history phone).getD []) ++
        [⟨now, cooldown7, error_type⟩]
      let hist' := if hist.length > 10 then hist.drop (hist.length - 10) else hist
      let hdict := dinsert s.session_cooldown_history phone hist'
      let s' := { s with session_cooldown_history := hdict }
      -- Python int() truncates; cooldown7 ≥ 300 > 0 so truncation is floor
      .ok (s', ⌊cooldown7⌋)

/-- `cool_down_session(phone, error_type)`. -/
def cool_down_session (s : LBState) (phone : String) (error_type : String)
    (now : ℚ) (jitter : ℚ) : Except PyErr (LBState × Int) :=
  match calculate_adaptive_cooldown s phone error_type now jitter with
  | .error e => .error e
  | .ok (s1, duration) =>
    let cdict := dinsert s1.session_cooldowns phone (now + duration)
    let s2 := { s1 with session_cooldowns := cdict }
    let s3 :=
      match alookup s2.session_metrics phone with
      | none => s2
      | some m =>
        let m' := { m with status := some "cooling",
                           cooling_start := some now,
                           cooling_duration := some (duration : ℚ),
                           cooling_end := some (now + duration),
                           cooling_reason := some error_type,
                           consecutive_errors := some 0,
                           successful_ops_since_last_issue := some 0 }
        { s2 with session_metrics := dinsert s2.session_metrics phone m' }
    .ok (s3, duration)

/-- The per-session metrics updates of `record_operation` (everything before
the flood-wait bookkeeping), applied to the current metrics dict `m0`. -/
def recordMetricsUpd (m0 : Metrics) (success : Bool) (error : Option String)
    (operation_type : String) (now : ℚ) : Metrics :=
  -- operation timestamp appended, pruned to the 300s window, count updated
  let opts := (m0.operation_timestamps.getD []) ++ [now]
  let opts2 := opts.filter (fun t => now - t ≤ 300)
  let m1 := { m0 with operation_timestamps := some opts2, operations := some opts2.length }
  -- operation recorded by type
  let obt := m1.operations_by_type.getD []
  let obt2 := dinsert obt operation_type ((alookup obt operation_type).getD [] ++ [now])
  let m2 := { m1 with operations_by_type := some obt2 }
  -- error bookkeeping (`if not success and error: ... else: ...`)
  if success = false ∧ error.isSome then
    { m2 with
      error_timestamps := some
        (((m2.error_timestamps.getD []) ++ [now]).filter (fun t => now - t ≤ 300)),
      consecutive_errors := some (m2.consecutive_errors.getD 0 + 1) }
  else
    { m2 with
      consecutive_errors := some 0,
      successful_ops_since_last_issue := some (m2.successful_ops_since_last_issue.getD 0 + 1) }

/-- `record_operation(phone, success, error, floodwait_seconds, operation_type)`.
All metric updates are applied, then the final
`await self.check_session_health(phone)` raises `AttributeError` because no
such method exists on `LoadBalancer`.  The flood-wait branch tests the literal
key `"flood_waits"` (not `phone`), so when that literal key is absent — which
is always, no code path inserts it — it resets `self.flood_wait_times[phone]`
to `[]` before appending; were the literal key present with `phone` absent,
the `.append` on the missing key would raise `KeyError` before the
successful-ops reset. -/
def record_operation (s : LBState) (phone : String) (success : Bool)
    (error : Option String) (floodwait_seconds : ℚ) (operation_type : String)
    (now : ℚ) : LBState × Except PyErr Unit :=
  let m0 := (alookup s.session_metrics phone).getD Metrics.empty
  let m3 := recordMetricsUpd m0 success error operation_type now
  -- flood-wait bookkeeping
  if floodwait_seconds > 0 then
    let fwd := s.flood_wait_times
    if (alookup fwd "flood_waits").isNone then
      -- buggy reset path: flood_wait_times[phone] = [] then append and prune
      let lst := ([] : List (ℚ × ℚ)) ++ [(now, floodwait_seconds)]
      let lst2 := lst.filter (fun p => p.1 ≥ now - 3600)
      let m4 := { m3 with successful_ops_since_last_issue := some 0 }
      ({ s with session_metrics := dinsert s.session_metrics phone m4,
                flood_wait_times := dinsert fwd phone lst2 },
       .error .attributeError)
    else
      match alookup fwd phone with
      | none =>
        -- append on a missing key raises KeyError; earlier updates persist
        ({ s with session_metrics := dinsert s.session_metrics phone m3 },
         .error .keyError)
      | some l =>
        let lst := l ++ [(now, floodwait_seconds)]
        let lst2 := lst.filter (fun p => p.1 ≥ now - 3600)
        let m4 := { m3 with successful_ops_since_last_issue := some 0 }
        ({ s with session_metrics := dinsert s.session_metrics phone m4,
                  flood_wait_times := dinsert fwd phone lst2 },
         .error .attributeError)
  else
    ({ s with session_metrics := dinsert s.session_metrics phone m3 },
     .error .attributeError)

/-- `detect_session_overload(phone)`.  Returns the overload verdict and the
state with `current_overload_score`, `operation_rate_history`, and (on a
positive verdict) `overload_history` / `status` updated.  The
operation-rate-acceleration sub-check only logs and is omitted from the score,
exactly as in the source. -/
def detect_session_overload (s : LBState) (phone : String) (now : ℚ) :
    LBState × Bool :=
  match alookup s.session_metrics phone with
  | none => (s, false)
  | some metrics =>
    -- 1. Error rate
    let recent_errors := ((metrics.error_timestamps.getD []).filter
      (fun t => now - t ≤ 300)).length
    let recent_ops := max ((metrics.operation_timestamps.getD []).filter
      (fun t => now - t ≤ 300)).length 1
    let error_rate : ℚ := (recent_errors : ℚ) / (recent_ops : ℚ)
    -- 2. Flood wait frequency (1-hour window)
    let flood_waits := (((alookup s.flood_wait_times phone).getD []).filter
      (fun p => now - p.1 ≤ 3600)).length
    -- 3. Response time degradation
    let response_time_degradation := ((metrics.response_times.getD []).countP
      (fun p =>
        let recent_times := ((p.2.filter (fun q => now - q.1 ≤ 1800)).map Prod.snd)
        match recent_times, baselineRT p.1 with
        | [], _ => false
        | _, none => false
        | ts, some baseline =>
          decide (ts.sum / (ts.length : ℚ) > baseline * 2)))
    -- 5. Pattern-based detection
    let oh := metrics.overload_history.getD []
    let pattern_score : ℚ :=
      if metrics.overload_history.isSome ∧ oh.length ≥ 2 then
        let last_overload_time := (oh.getLast?.map OverloadEntry.timestamp).getD 0
        let time_since_last := now - last_overload_time
        let timestamps := oh.map OverloadEntry.timestamp
        let intervals := (timestamps.zip timestamps.tail).map (fun p => p.2 - p.1)
        if intervals ≠ [] then
          let avg_interval := intervals.sum / (intervals.length : ℚ)
          if time_since_last > avg_interval * (7/10) then 7/10 else 0
        else 0
      else 0
    -- Combined score
    let ce := metrics.consecutive_errors.getD 0
    let score1 := if error_rate ≥ 1/5 then error_rate / (1/5) else 0
    let score2 := if flood_waits ≥ 5 then (flood_waits : ℚ) / 5 else 0
    let score3 := if ce ≥ 3 then (ce : ℚ) / 3 else 0
    let overload_score := score1 + score2 + score3 +
      (response_time_degradation : ℚ) * (1/5) + pattern_score
    -- Metric updates
    let current_rate := ((metrics.operation_timestamps.getD []).filter
      (fun t => now - t ≤ 60)).length
    let orh := metrics.operation_rate_history.getD [] ++ [current_rate]
    let orh2 := if orh.length > 10 then orh.drop (orh.length - 10) else orh
    let m1 := { metrics with current_overload_score := some overload_score,
                             operation_rate_history := some orh2 }
    let is_overloaded := overload_score ≥ 1
    let m2 :=
      if is_overloaded then
        let entry : OverloadEntry :=
          ⟨now, overload_score, error_rate, flood_waits, ce⟩
        let oh1 := m1.overload_history.getD [] ++ [entry]
        let oh2 := if oh1.length > 20 then oh1.drop (oh1.length - 20) else oh1
        { m1 with overload_history := some oh2, status := some "overloaded" }
      else m1
    ({ s with session_metrics := dinsert s.session_metrics phone m2 },
     is_overloaded)

/-- One iteration of the `update_session_priorities` loop, for the dict item
`(phone, metrics)`.  Reads the live priority / flood-wait state from `st`,
exactly as the source reads `self.session_priorities` and
`self.flood_wait_times` while iterating `self.session_metrics.items()`. -/
def updStep (st : LBState) (phone : String) (metrics : Metrics) (now : ℚ) :
    LBState :=
  -- initialize with default priority when absent
  let pr0 := if (alookup st.session_priorities phone).isSome then st.session_priorities
    else dinsert st.session_priorities phone 5
  let st1 := { st with session_priorities := pr0 }
  -- skip sessions without enough data
  if metrics.operations.isNone ∨ metrics.operations.getD 0 < 10 then st1
  else
    -- 1. error rate factor (full error list over windowed op count)
    let error_rate : ℚ := ((metrics.error_timestamps.getD []).length : ℚ) /
      (max (metrics.operations.getD 0) 1 : ℚ)
    let error_factor : Int :=
      if error_rate < 1/100 then 2
      else if error_rate < 1/20 then 1
      else if error_rate > 1/5 then -1
      else if error_rate > 2/5 then -2
      else 0
    -- 2. flood wait factor (whole recorded list, unwindowed)
    let fw_count := ((alookup st1.flood_wait_times phone).getD []).length
    let flood_factor : Int :=
      if fw_count = 0 then 1
      else if fw_count > 3 then -1
      else if fw_count > 5 then -2
      else 0
    -- 3. operation frequency factor (last 10 minutes)
    let recent_ops := ((metrics.operation_timestamps.getD []).filter
      (fun t => now - t ≤ 600)).length
    let frequency_factor : Int :=
      if recent_ops > 100 then -2
      else if recent_ops > 50 then -1
      else if recent_ops < 10 then 1
      else 0
    -- 4. user type bonus
    let user_type := metrics.user_type.getD "regular"
    let type_factor : Int :=
      if user_type = "premium" then 1 else if user_type = "admin" then 2 else 0
    -- 5. critical operation bonus
    let critical_factor : Int := if metrics.critical_operation.getD false then 1 else 0
    -- 6. consistent good behavior bonus
    let consistency_factor : Int :=
      if metrics.consistent_good_behavior.getD false then 1 else 0
    let adjustment := error_factor + flood_factor + frequency_factor +
      type_factor + critical_factor + consistency_factor
    let capped_adjustment := max (min adjustment 2) (-2)
    let cur := (alookup st1.session_priorities phone).getD 5
    let new_priority := max (min (cur + capped_adjustment) 10) 1
    let pr1 := if new_priority ≠ cur then dinsert st1.session_priorities phone new_priority
      else st1.session_priorities
    let st2 := { st1 with session_priorities := pr1 }
    -- consistency streak tracking
    let m2 :=
      if error_factor > 0 ∧ flood_factor ≥ 0 then
        let streak := metrics.good_behavior_streak.getD 0 + 1
        let m1 := { metrics with good_behavior_streak := some streak }
        if streak ≥ 5 then { m1 with consistent_good_behavior := some true } else m1
      else
        { metrics with good_behavior_streak := some 0,
                       consistent_good_behavior := some false }
    { st2 with session_metrics := dinsert st2.session_metrics phone m2 }

/-- `update_session_priorities()`: iterate over `self.session_metrics.items()`. -/
def update_session_priorities (s : LBState) (now : ℚ) : LBState :=
  s.session_metrics.foldl (fun st pm => updStep st pm.1 pm.2 now) s

/-- The combined selection score of `get_best_client`:
`priority * health_score`, with the 0.9 penalty for the backup pool.
`self.session_priorities.get(phone, 5)` and
`self.session_metrics.get(phone, {}).get("health_score", 1.0)`. -/
def combinedScore (s : LBState) (phone : String) (is_backup : Bool) : ℚ :=
  let priority := (alookup s.session_priorities phone).getD 5
  let health_score : ℚ :=
    match alookup s.session_metrics phone with
    | some m => m.health_score.getD 1
    | none => 1
  if is_backup then (priority : ℚ) * health_score * (9/10)
  else (priority : ℚ) * health_score

/-- One pool pass of the purpose-keyed `get_best_client`: collect
`(combined_score, phone)` for each phone with a registered client that is not
in cooldown.  Threads the state because `is_in_cooldown` lazily deletes
expired entries. -/
def availLoop (is_backup : Bool) : LBState → ℚ → List String → LBState × List (ℚ × String)
  | s, _, [] => (s, [])
  | s, now, phone :: rest =>
    if phone ∈ s.active_clients then
      let ic := is_in_cooldown s phone now
      if ic.2 then availLoop is_backup ic.1 now rest
      else
        let r := availLoop is_backup ic.1 now rest
        (r.1, (combinedScore ic.1 phone is_backup, phone) :: r.2)
    else availLoop is_backup s now rest

/-- Python tuple comparison `(score, phone) > (score, phone)` used by
`available_sessions.sort(reverse=True)`. -/
def pairGt (a b : ℚ × String) : Prop := a.1 > b.1 ∨ (a.1 = b.1 ∧ b.2 < a.2)

instance (a b : ℚ × String) : Decidable (pairGt a b) := by
  unfold pairGt; infer_instance

/-- `available_sessions.sort(reverse=True)` followed by `available_sessions[0]`:
the lexicographically greatest `(score, phone)` pair. -/
def bestOf : List (ℚ × String) → Option (ℚ × String)
  | [] => none
  | x :: xs => some (xs.foldl (fun acc y => if pairGt y acc then y else acc) x)

/-- The last-resort scan of the purpose-keyed `get_best_client`: the first
session with a registered client and metrics whose `status` is not
`"cooling"`; reading a metrics dict with no `"status"` key raises `KeyError`. -/
def lastResort (s : LBState) : List String → Except PyErr (Option String)
  | [] => .ok none
  | phone :: rest =>
    if phone ∈ s.active_clients ∧ (alookup s.session_metrics phone).isSome then
      match alookup s.session_metrics phone with
      | none => lastResort s rest
      | some m =>
        match m.status with
        | none => .error .keyError
        | some st => if st ≠ "cooling" then .ok (some phone) else lastResort s rest
    else lastResort s rest

/-- Purpose resolution: `if purpose not in self.sessions`, fall back to
`"general"`, and give up when that is absent too. -/
def resolvePool (s : LBState) (purpose : String) : Option Pool :=
  match alookup s.sessions purpose with
  | some pool => some pool
  | none => alookup s.sessions "general"

/-- The selection body of the purpose-keyed `get_best_client`, after the
health-check and priority-update preamble: primary pool pass, backup pool
pass when the primary yields nothing, highest combined score, and the
last-resort scan. -/
def gbcSelect (s1 : LBState) (purpose : String) (now : ℚ) :
    LBState × Except PyErr (Option String) :=
  match resolvePool s1 purpose with
  | none => (s1, .ok none)
  | some pool =>
    let rP := availLoop false s1 now pool.primary
    let rB := if rP.2 = [] then availLoop true rP.1 now pool.backup else rP
    match bestOf rB.2 with
    | some best => (rB.1, .ok (some best.2))
    | none => (rB.1, lastResort rB.1 (pool.primary ++ pool.backup))

/-- The purpose-keyed `get_best_client(purpose)` (the later of the two
definitions in the source, which shadows the `operation_type`-keyed one).
The initial health check calls the undefined `check_all_sessions_health`, so
that branch raises `AttributeError` (and `last_health_check` is never
advanced).  The selected phone stands for the `(phone, client)` pair: the
source only ever pairs a phone with its own registered client, and returns
`(None, None)` when no phone is selected. -/
def get_best_client (s : LBState) (purpose : String) (now : ℚ) :
    LBState × Except PyErr (Option String) :=
  if now - s.last_health_check > 60 then
    (s, .error .attributeError)
  else
    let s1 :=
      if now - s.last_priority_update > 600 then
        { update_session_priorities s now with last_priority_update := now }
      else s
    gbcSelect s1 purpose now

/-- Python tuple comparison used by `phone_scores.sort()` (ascending). -/
def pairLt (a b : ℚ × String) : Prop := a.1 < b.1 ∨ (a.1 = b.1 ∧ a.2 < b.2)

instance (a b : ℚ × String) : Decidable (pairLt a b) := by
  unfold pairLt; infer_instance

/-- `phone_scores.sort()` followed by `phone_scores[0]`: the lexicographically
least pair. -/
def minOf : List (ℚ × String) → Option (ℚ × String)
  | [] => none
  | x :: xs => some (xs.foldl (fun acc y => if pairLt y acc then y else acc) x)

/-- The candidate-collection loop of `implement_session_rotation`: phones of a
pool other than `current`, with a registered client and not in cooldown. -/
def rotAvailLoop (current : String) : LBState → ℚ → List String → LBState × List String
  | s, _, [] => (s, [])
  | s, now, phone :: rest =>
    if phone ≠ current ∧ phone ∈ s.active_clients then
      let ic := is_in_cooldown s phone now
      if ic.2 then rotAvailLoop current ic.1 now rest
      else
        let r := rotAvailLoop current ic.1 now rest
        (r.1, phone :: r.2)
    else rotAvailLoop current s now rest

/-- The rotation score of one candidate phone (`random.uniform(0, 0.1)` is the
explicit `rand phone` outcome). -/
def rotScore (s : LBState) (phone : String) (now : ℚ) (rand : String → ℚ) : ℚ :=
  match alookup s.session_metrics phone with
  | some m =>
    let health_score := m.health_score.getD 1
    let priority := (alookup s.session_priorities phone).getD 5
    let recent_ops := ((m.operation_timestamps.getD []).filter
      (fun t => now - t ≤ 300)).length
    (0 : ℚ) - health_score - (priority : ℚ) / 10 + (recent_ops : ℚ) / 100 + rand phone
  | none => 0

/-- `implement_session_rotation(purpose, current_phone)`.  An empty
`current_phone` string is falsy in Python and falls through to
`get_best_client`. -/
def implement_session_rotation (s : LBState) (purpose : String)
    (current_phone : String) (now : ℚ) (rand : String → ℚ) :
    LBState × Except PyErr (Option String) :=
  if current_phone = "" then get_best_client s purpose now
  else
    let pool := (alookup s.sessions purpose).getD ⟨[], []⟩
    let current_pool_is_backup :=
      if current_phone ∈ pool.primary then false
      else if current_phone ∈ pool.backup then true
      else false
    let same_pool := if current_pool_is_backup then pool.backup else pool.primary
    let other_pool := if current_pool_is_backup then pool.primary else pool.backup
    let r1 := rotAvailLoop current_phone s now same_pool
    let r2 := if r1.2 = [] then rotAvailLoop current_phone r1.1 now other_pool else r1
    if r2.2 = [] then (r2.1, .ok (some current_phone))
    else
      let phone_scores := r2.2.map (fun ph => (rotScore r2.1 ph now rand, ph))
      match minOf phone_scores with
      | some best => (r2.1, .ok (some best.2))
      | none => (r2.1, .ok (some current_phone))

/-- `force_session_rotation(purpose, avoid_phone)`. -/
def force_session_rotation (s : LBState) (purpose : String) (avoid_phone : String)
    (now : ℚ) (jitter : ℚ) (rand : String → ℚ) :
    LBState × Except PyErr (Option String) :=
  if (alookup s.session_metrics avoid_phone).isSome then
    match cool_down_session s avoid_phone "forced_rotation" now jitter with
    | .error e => (s, .error e)
    | .ok (s1, _) => implement_session_rotation s1 purpose avoid_phone now rand
  else implement_session_rotation s purpose avoid_phone now rand

/-- `str(e).lower()` as a character list. -/
def lowerChars (msg : String) : List Char := msg.data.map Char.toLower

/-- Python `sub in s` on character lists. -/
def containsSub (pat : List Char) : List Char → Bool
  | [] => pat.isEmpty
  | c :: rest => pat.isPrefixOf (c :: rest) || containsSub pat rest

/-- Numeric value of a digit run. -/
def digitRunVal (l : List Char) : Nat :=
  l.foldl (fun a c => a * 10 + (c.toNat - 48)) 0

/-- `re.search(r"(\d+)", s)`: the first maximal digit run, parsed. -/
def firstNat : List Char → Option Nat
  | [] => none
  | c :: rest =>
    if c.isDigit then some (digitRunVal (c :: rest.takeWhile Char.isDigit))
    else firstNat rest

/-- The flood-wait extraction in `execute_with_priority`'s `except` clause:
if the lowered error text mentions "floodwait" or "flood wait", the first
integer in it, else 0. -/
def extractFloodWait (msg : String) : ℚ :=
  let ls := lowerChars msg
  if containsSub "floodwait".data ls || containsSub "flood wait".data ls then
    match firstNat ls with
    | some n => (n : ℚ)
    | none => 0
  else 0

/-- Behaviour of the wrapped coroutine passed to `execute_with_priority`:
it either returns or raises an exception whose `str()` is `msg`. -/
inductive FuncOut where
  | ok
  | raise (msg : String)
  deriving DecidableEq, Repr

/-- `execute_with_priority(purpose, func, operation_type)`.  The
priority-based throttling only computes an `asyncio.sleep` delay, with no
state effect, and is omitted.  The `(result, success, phone)` tuple is
modelled as `(success, phone)` (the `result` payload is the wrapped value or
the exception object, which the claims never inspect).  The `finally` block
runs `record_operation`, whose trailing `check_session_health` raise replaces
the pending return, exactly as in Python `finally` semantics. -/
def execute_with_priority (s : LBState) (purpose : String) (func : FuncOut)
    (operation_type : String) (now : ℚ) :
    LBState × Except PyErr (Bool × String) :=
  match get_best_client s purpose now with
  | (s1, .error e) => (s1, .error e)
  | (s1, .ok none) => (s1, .ok (false, ""))
  | (s1, .ok (some phone)) =>
    let (success, error, floodwait_seconds) :=
      match func with
      | .ok => (true, (none : Option String), (0 : ℚ))
      | .raise msg => (false, some msg, extractFloodWait msg)
    match record_operation s1 phone success error floodwait_seconds operation_type now with
    | (s2, .error e) => (s2, .error e)
    | (s2, .ok _) => (s2, .ok (success, phone))

/-- Outcome of one attempt of the coroutine wrapped by
`utils/floodwait.py::safe_execute`: a value, a `FloodWaitError` carrying
`e.seconds`, a `ServerError`/`TimedOutError`, or any other exception. -/
inductive FwOut where
  | ok (v : Nat)
  | floodWait (seconds : Nat)
  | serverErr
  | otherErr
  deriving DecidableEq, Repr

/-- An exception propagated out of `safe_execute`. -/
inductive FwErr where
  | floodWait (seconds : Nat)
  | serverErr
  | otherErr
  deriving DecidableEq, Repr

/-- Result of `safe_execute`: a returned value (`None` when `max_attempts`
is 0 and the loop never runs) or a raised exception. -/
inductive SEResult where
  | val (v : Option Nat)
  | exc (e : FwErr)
  deriving DecidableEq, Repr

/-- Trace events of `safe_execute`: invoking the wrapped function for the
`n`-th time (0-based, the source's `attempt` counter at call time), and an
`asyncio.sleep` of a given duration. -/
inductive FwEv where
  | attempt (n : Nat)
  | sleepEv (d : ℚ)
  deriving DecidableEq, Repr

/-- The `while attempt < max_attempts` loop of `safe_execute`, structurally
recursive on the remaining attempt budget (`fuel = max_attempts - k`).
`outs k` is the outcome of the `k`-th call; `jit a` is the
`random.uniform(0, 1)` outcome when the incremented `attempt` counter is `a`.
On `FloodWaitError` the source sleeps exactly `e.seconds`; on
server errors, `min(30, 2 ** attempt + jitter)` (or a flat 5 when
`exponential_backoff` is off); other exceptions re-raise immediately. -/
def safeExecAux (outs : Nat → FwOut) (jit : Nat → ℚ) (eb : Bool)
    (max_attempts : Nat) : Nat → Nat → SEResult × List FwEv
  | _, 0 => (.val none, [])
  | k, fuel + 1 =>
    match outs k with
    | .ok v => (.val (some v), [.attempt k])
    | .floodWait w =>
      if k + 1 < max_attempts then
        let r := safeExecAux outs jit eb max_attempts (k + 1) fuel
        (r.1, .attempt k :: .sleepEv (w : ℚ) :: r.2)
      else (.exc (.floodWait w), [.attempt k])
    | .serverErr =>
      if k + 1 < max_attempts then
        let wait_time : ℚ := if eb then min 30 ((2 : ℚ) ^ (k + 1) + jit (k + 1)) else 5
        let r := safeExecAux outs jit eb max_attempts (k + 1) fuel
        (r.1, .attempt k :: .sleepEv wait_time :: r.2)
      else (.exc .serverErr, [.attempt k])
    | .otherErr => (.exc .otherErr, [.attempt k])

/-- `safe_execute(func, max_attempts, exponential_backoff)`. -/
def safe_execute (outs : Nat → FwOut) (jit : Nat → ℚ) (max_attempts : Nat)
    (eb : Bool) : SEResult × List FwEv :=
  safeExecAux outs jit eb max_attempts 0 max_attempts

/-- The `LoadBalancer` operations a session is subjected to after
registration (used to state state-machine invariants). -/
inductive LBOp where
  | record (phone : String) (success : Bool) (error : Option String)
      (fw : ℚ) (op_type : String) (now : ℚ)
  | detect (phone : String) (now : ℚ)
  | coolDown (phone : String) (error_type : String) (now : ℚ) (jitter : ℚ)
  | updatePriorities (now : ℚ)
  | register (phone : String) (purpose : String) (is_primary : Bool)

/-- Apply one operation; a raising operation leaves the state it had mutated
up to the raise (for `cool_down_session` the raise precedes any mutation). -/
def applyLBOp (s : LBState) : LBOp → LBState
  | .record phone success error fw op_type now =>
    (record_operation s phone success error fw op_type now).1
  | .detect phone now => (detect_session_overload s phone now).1
  | .coolDown phone error_type now jitter =>
    match cool_down_session s phone error_type now jitter with
    | .ok r => r.1
    | .error _ => s
  | .updatePriorities now => update_session_priorities s now
  | .register phone purpose is_primary => register_client s phone purpose is_primary


/-! ### Association-list lemmas -/

theorem alookup_append_of_none {β : Type} (d1 d2 : List (String × β)) (k : String)
    (h : alookup d1 k = none) : alookup (d1 ++ d2) k = alookup d2 k := by
  induction d1 with
  | nil => rfl
  | cons a rest ih =>
    obtain ⟨a1, a2⟩ := a
    simp only [alookup, List.cons_append] at h ⊢
    by_cases hk : a1 = k
    · rw [if_pos hk] at h; cases h
    · rw [if_neg hk] at h ⊢
      exact ih h

theorem alookup_append_of_some {β : Type} (d1 d2 : List (String × β)) (k : String)
    (v : β) (h : alookup d1 k = some v) : alookup (d1 ++ d2) k = some v := by
  induction d1 with
  | nil => cases h
  | cons a rest ih =>
    obtain ⟨a1, a2⟩ := a
    simp only [alookup, List.cons_append] at h ⊢
    by_cases hk : a1 = k
    · rw [if_pos hk] at h ⊢; exact h
    · rw [if_neg hk] at h ⊢
      exact ih h

theorem alookup_dinsert_self {β : Type} (d : List (String × β)) (k : String) (v : β) :
    alookup (dinsert d k v) k = some v := by
  induction d with
  | nil => simp [dinsert, alookup]
  | cons a rest ih =>
    obtain ⟨a1, a2⟩ := a
    by_cases hk : a1 = k
    · simp [dinsert, hk, alookup]
    · simp [dinsert, hk, alookup, ih]

theorem alookup_dinsert_ne {β : Type} (d : List (String × β)) (k k' : String) (v : β)
    (h : k' ≠ k) : alookup (dinsert d k v) k' = alookup d k' := by
  induction d with
  | nil => simp [dinsert, alookup, Ne.symm h]
  | cons a rest ih =>
    obtain ⟨a1, a2⟩ := a
    by_cases hk : a1 = k
    · subst hk
      simp [dinsert, alookup, Ne.symm h]
    · simp [dinsert, hk, alookup, ih]

theorem alookup_ddelete_ne {β : Type} (d : List (String × β)) (k k' : String)
    (h : k' ≠ k) : alookup (ddelete d k) k' = alookup d k' := by
  induction d with
  | nil => rfl
  | cons a rest ih =>
    obtain ⟨a1, a2⟩ := a
    by_cases hk : a1 = k
    · subst hk
      simp [ddelete, alookup, List.filter, Ne.symm h] at ih ⊢
      exact ih
    · simp [ddelete, alookup, List.filter, hk] at ih ⊢
      by_cases hk2 : a1 = k'
      · simp [hk2]
      · simp [hk2, ih]

/-! ### C7: adaptive cooldown bounds -/

theorem severityWeight_general : severityWeight "general" = 4/5 := rfl

theorem severityWeight_forced : severityWeight "forced_rotation" = 4/5 := rfl

theorem floor_clamp_bounds (x : ℚ) :
    300 ≤ ⌊min (max x 300) 3600⌋ ∧ ⌊min (max x 300) 3600⌋ ≤ 3600 := by
  constructor
  · apply Int.le_floor.mpr
    push_cast
    exact le_min (le_max_right _ _) (by norm_num)
  · have h3 : ((3600 : ℤ) : ℚ) = (3600 : ℚ) := by norm_num
    calc ⌊min (max x 300) 3600⌋ ≤ ⌊((3600 : ℤ) : ℚ)⌋ :=
          Int.floor_le_floor (by rw [h3]; exact min_le_right _ _)
      _ = 3600 := Int.floor_intCast _

/-- A metrics state whose overload history holds three entries with identical
timestamps: the consecutive intervals are all zero, so the pattern step of
`calculate_adaptive_cooldown` divides by a zero average interval. -/
def zdMetrics : Metrics :=
  { registerMetrics with
      overload_history := some [⟨9, 2, 1, 0, 0⟩, ⟨9, 2, 1, 0, 0⟩, ⟨9, 2, 1, 0, 0⟩] }

def zdState : LBState := { session_metrics := [("p", zdMetrics)] }

/-- C7 counterexample: `calculate_adaptive_cooldown` does not return a
duration for every session id, error type, prior metrics state, cooldown
history and jitter outcome — at a metrics state whose three overload-history
entries share one timestamp it raises `ZeroDivisionError` instead. -/
theorem c7_counterexample :
    calculate_adaptive_cooldown zdState "p" "general" 100 1 =
      .error PyErr.zeroDivisionError := by
  norm_num [calculate_adaptive_cooldown, zdState, zdMetrics, registerMetrics,
    alookup, severityWeight_general]

/-- C7 (amended): whenever `calculate_adaptive_cooldown` returns (i.e. the
pattern step does not divide by a zero average overload interval), the
returned duration lies within `[base_cooldown, max_cooldown] = [300, 3600]`
inclusive, for every session id, error type, prior metrics state, cooldown
history and jitter outcome. -/
theorem c7_cooldown_bounds (s : LBState) (phone error_type : String)
    (now jitter : ℚ) (s' : LBState) (d : Int)
    (h : calculate_adaptive_cooldown s phone error_type now jitter = .ok (s', d)) :
    300 ≤ d ∧ d ≤ 3600 := by
  unfold calculate_adaptive_cooldown at h
  cases hm : alookup s.session_metrics phone with
  | none =>
    rw [hm] at h
    simp only [Except.ok.injEq, Prod.mk.injEq] at h
    omega
  | some metrics =>
    rw [hm] at h
    simp only [] at h
    split at h
    · cases h
    · simp only [Except.ok.injEq, Prod.mk.injEq] at h
      obtain ⟨-, hd⟩ := h
      subst hd
      exact floor_clamp_bounds _

/-- The simplest returning run used to witness `c7_cooldown_bounds`. -/
def s7ok : LBState := { session_metrics := [("p", registerMetrics)] }

/-- The state `c7_cooldown_bounds`'s witness run produces. -/
def s7ok' : LBState :=
  { s7ok with session_cooldown_history := [("p", [⟨100, 300, "general"⟩])] }

theorem c7_run_eval :
    calculate_adaptive_cooldown s7ok "p" "general" 100 1 = .ok (s7ok', 300) := by
  norm_num [calculate_adaptive_cooldown, s7ok, s7ok', registerMetrics, alookup,
    severityWeight_general, dinsert]

theorem c7_cooldown_bounds_witness :
    calculate_adaptive_cooldown s7ok "p" "general" 100 1 = .ok (s7ok', 300) ∧
      (300 ≤ (300 : Int) ∧ (300 : Int) ≤ 3600) :=
  ⟨c7_run_eval, c7_cooldown_bounds s7ok "p" "general" 100 1 s7ok' 300 c7_run_eval⟩


/-! ### C2: record_operation always raises AttributeError -/

theorem now_mem_append_filter (l : List ℚ) (now : ℚ) :
    now ∈ (l ++ [now]).filter (fun t => now - t ≤ 300) := by
  rw [List.mem_filter]
  refine ⟨by simp, ?_⟩
  simp only [decide_eq_true_eq]
  linarith

theorem rmu_op_mem (m0 : Metrics) (success : Bool) (error : Option String)
    (op_type : String) (now : ℚ) :
    now ∈ (recordMetricsUpd m0 success error op_type now).operation_timestamps.getD [] := by
  unfold recordMetricsUpd
  by_cases h : success = false ∧ error.isSome
  · simp only [if_pos h, Option.getD_some]
    exact now_mem_append_filter _ _
  · simp only [if_neg h, Option.getD_some]
    exact now_mem_append_filter _ _

theorem rmu_err (m0 : Metrics) (success : Bool) (error : Option String)
    (op_type : String) (now : ℚ) (h : success = false ∧ error.isSome) :
    now ∈ (recordMetricsUpd m0 success error op_type now).error_timestamps.getD [] ∧
      (recordMetricsUpd m0 success error op_type now).consecutive_errors =
        some (m0.consecutive_errors.getD 0 + 1) := by
  unfold recordMetricsUpd
  simp only [if_pos h, Option.getD_some]
  exact ⟨now_mem_append_filter _ _, by trivial⟩

theorem rmu_noerr (m0 : Metrics) (success : Bool) (error : Option String)
    (op_type : String) (now : ℚ) (h : ¬(success = false ∧ error.isSome)) :
    (recordMetricsUpd m0 success error op_type now).consecutive_errors = some 0 := by
  unfold recordMetricsUpd
  simp only [if_neg h]

/-- Core fact: every `record_operation` call applies its metric updates — the
operation timestamp is appended (and survives the window pruning), the
error / consecutive-error counters are updated, a positive flood wait is
recorded — and then raises `AttributeError`, because `check_session_health`
is not defined anywhere on `LoadBalancer`.  (The hypothesis rules out a
`flood_wait_times` dict that already has the literal key `"flood_waits"`,
which no code path ever inserts; there the buggy key test would divert to a
`KeyError` instead.) -/
theorem record_raises_core (s : LBState) (phone : String) (success : Bool)
    (error : Option String) (fw : ℚ) (op_type : String) (now : ℚ)
    (hfw : alookup s.flood_wait_times "flood_waits" = none) :
    (record_operation s phone success error fw op_type now).2 =
        Except.error PyErr.attributeError ∧
      (∃ m, alookup (record_operation s phone success error fw op_type now).1.session_metrics phone
          = some m ∧
        now ∈ m.operation_timestamps.getD [] ∧
        ((success = false ∧ error.isSome) →
          now ∈ m.error_timestamps.getD [] ∧
          m.consecutive_errors = some
            (((alookup s.session_metrics phone).getD Metrics.empty).consecutive_errors.getD 0 + 1)) ∧
        (¬(success = false ∧ error.isSome) → m.consecutive_errors = some 0)) ∧
      (fw > 0 →
        (now, fw) ∈ (alookup (record_operation s phone success error fw op_type now).1.flood_wait_times phone).getD []) := by
  have hbody : ∀ m : Metrics,
      m = recordMetricsUpd ((alookup s.session_metrics phone).getD Metrics.empty)
            success error op_type now →
      now ∈ m.operation_timestamps.getD [] ∧
      ((success = false ∧ error.isSome) →
        now ∈ m.error_timestamps.getD [] ∧
        m.consecutive_errors = some
          (((alookup s.session_metrics phone).getD Metrics.empty).consecutive_errors.getD 0 + 1)) ∧
      (¬(success = false ∧ error.isSome) → m.consecutive_errors = some 0) := by
    intro m hm
    subst hm
    exact ⟨rmu_op_mem _ _ _ _ _,
      fun h => rmu_err _ _ _ _ _ h,
      fun h => rmu_noerr _ _ _ _ _ h⟩
  unfold record_operation
  by_cases hpos : fw > 0
  · rw [if_pos hpos]
    simp only [hfw, Option.isNone_none, if_true]
    refine ⟨by trivial, ⟨_, alookup_dinsert_self _ _ _, ?_, ?_, ?_⟩, ?_⟩
    · exact (hbody _ rfl).1
    · intro h
      exact (hbody _ rfl).2.1 h
    · intro h
      exact (hbody _ rfl).2.2 h
    · intro _
      rw [alookup_dinsert_self, Option.getD_some, List.mem_filter]
      refine ⟨by simp, ?_⟩
      simp only [decide_eq_true_eq, ge_iff_le]
      linarith
  · rw [if_neg hpos]
    refine ⟨by trivial, ⟨_, alookup_dinsert_self _ _ _, ?_, ?_, ?_⟩, fun h => absurd h hpos⟩
    · exact (hbody _ rfl).1
    · intro h
      exact (hbody _ rfl).2.1 h
    · intro h
      exact (hbody _ rfl).2.2 h

/-- C2: every `record_operation` call applies its metric updates and then
raises `AttributeError`, because `check_session_health` is not defined
anywhere on `LoadBalancer`. -/
theorem c2_record_raises (s : LBState) (phone : String) (success : Bool)
    (error : Option String) (fw : ℚ) (op_type : String) (now : ℚ)
    (hfw : alookup s.flood_wait_times "flood_waits" = none) :
    (record_operation s phone success error fw op_type now).2 =
        Except.error PyErr.attributeError ∧
      (∃ m, alookup (record_operation s phone success error fw op_type now).1.session_metrics phone
          = some m ∧
        now ∈ m.operation_timestamps.getD [] ∧
        ((success = false ∧ error.isSome) →
          now ∈ m.error_timestamps.getD [] ∧
          m.consecutive_errors = some
            (((alookup s.session_metrics phone).getD Metrics.empty).consecutive_errors.getD 0 + 1)) ∧
        (¬(success = false ∧ error.isSome) → m.consecutive_errors = some 0)) ∧
      (fw > 0 →
        (now, fw) ∈ (alookup (record_operation s phone success error fw op_type now).1.flood_wait_times phone).getD []) :=
  record_raises_core s phone success error fw op_type now hfw

/-- Concrete state for the `c2_record_raises` witness. -/
def c2w : LBState := { session_metrics := [("p", registerMetrics)] }

theorem c2_record_raises_witness :
    alookup c2w.flood_wait_times "flood_waits" = none ∧
      (record_operation c2w "p" false (some "boom") 3 "general" 50).2 =
        Except.error PyErr.attributeError :=
  ⟨rfl, (c2_record_raises c2w "p" false (some "boom") 3 "general" 50 rfl).1⟩

/-! ### C4: the flood-wait window is reset on every record -/

/-- A freshly registered session. -/
def c4s0 : LBState := { session_metrics := [("p", registerMetrics)] }

/-- After recording a 5s flood wait at t=1000. -/
def c4s1 : LBState := (record_operation c4s0 "p" true none 5 "general" 1000).1

/-- After additionally recording a 7s flood wait at t=1010. -/
def c4s2 : LBState := (record_operation c4s1 "p" true none 7 "general" 1010).1

/-- C4 (code bug): after recording two flood waits 10 seconds apart — both
well inside the 1-hour window — the session's flood-wait window holds only
the latest event.  `record_operation` tests the literal key `"flood_waits"`
instead of `phone` and therefore resets `self.flood_wait_times[phone]` to
`[]` on every call, so the window is not append-only and
`detect_session_overload`'s flood-wait frequency can never see more than one
event. -/
theorem c4_flood_window_reset :
    alookup c4s2.flood_wait_times "p" = some [(1010, 7)] ∧
      ((alookup c4s2.flood_wait_times "p").getD []).length = 1 := by
  norm_num [c4s2, c4s1, c4s0, record_operation, recordMetricsUpd, registerMetrics,
    alookup, dinsert, Metrics.empty]

/-! ### C9: overload detection with zero recorded operations -/

/-- C9: for a session whose metrics are the freshly registered dict (zero
recorded operations) and whose flood-wait window is empty,
`detect_session_overload` returns `false`: the error-rate divisor is floored
at 1 (`max(..., 1)`), every signal contributes 0, and the recorded combined
overload score is 0, strictly below the 1.0 threshold. -/
theorem c9_detect_zero_ops (s : LBState) (phone : String) (now : ℚ)
    (hm : alookup s.session_metrics phone = some registerMetrics)
    (hf : (alookup s.flood_wait_times phone).getD [] = []) :
    (detect_session_overload s phone now).2 = false ∧
      (∃ m, alookup (detect_session_overload s phone now).1.session_metrics phone = some m ∧
        m.current_overload_score = some 0) := by
  unfold detect_session_overload
  rw [hm, hf]
  norm_num [registerMetrics]
  exact ⟨_, alookup_dinsert_self _ _ _, rfl⟩

/-! ### C8: priority update bounds -/

/-- `self.session_priorities.get(phone, self.default_priority)`: the effective
priority of a session (default 5). -/
def priorityGet (s : LBState) (phone : String) : Int :=
  (alookup s.session_priorities phone).getD 5

theorem alookup_ite_dinsert_left {β : Type} (c : Prop) [Decidable c]
    (d : List (String × β)) (k k' : String) (v : β) (h : k' ≠ k) :
    alookup (if c then dinsert d k v else d) k' = alookup d k' := by
  split
  · exact alookup_dinsert_ne _ _ _ _ h
  · rfl

theorem alookup_ite_dinsert_right {β : Type} (c : Prop) [Decidable c]
    (d : List (String × β)) (k k' : String) (v : β) (h : k' ≠ k) :
    alookup (if c then d else dinsert d k v) k' = alookup d k' := by
  split
  · rfl
  · exact alookup_dinsert_ne _ _ _ _ h

theorem ensure_getD (d : List (String × Int)) (k : String) :
    (alookup (if (alookup d k).isSome then d else dinsert d k 5) k).getD 5 =
      (alookup d k).getD 5 := by
  split
  · rfl
  · next hn =>
    rw [alookup_dinsert_self]
    cases hd : alookup d k with
    | some v => rw [hd] at hn; simp at hn
    | none => rfl

theorem updStep_priorities_ne (st : LBState) (ph A : String) (m : Metrics)
    (now : ℚ) (h : A ≠ ph) :
    alookup (updStep st ph m now).session_priorities A =
      alookup st.session_priorities A := by
  simp only [updStep]
  split
  · exact alookup_ite_dinsert_right _ _ _ _ _ h
  · dsimp only
    rw [alookup_ite_dinsert_left _ _ _ _ _ h, alookup_ite_dinsert_right _ _ _ _ _ h]

theorem updStep_cooldowns (st : LBState) (ph : String) (m : Metrics) (now : ℚ) :
    (updStep st ph m now).session_cooldowns = st.session_cooldowns := by
  simp only [updStep]
  split <;> rfl

theorem updStep_active (st : LBState) (ph : String) (m : Metrics) (now : ℚ) :
    (updStep st ph m now).active_clients = st.active_clients := by
  simp only [updStep]
  split <;> rfl

theorem updStep_sessions (st : LBState) (ph : String) (m : Metrics) (now : ℚ) :
    (updStep st ph m now).sessions = st.sessions := by
  simp only [updStep]
  split <;> rfl

theorem updStep_metrics_ne (st : LBState) (ph A : String) (m : Metrics) (now : ℚ)
    (h : A ≠ ph) :
    alookup (updStep st ph m now).session_metrics A =
      alookup st.session_metrics A := by
  simp only [updStep]
  split
  · rfl
  · exact alookup_dinsert_ne _ _ _ _ h

theorem updStep_metrics_self (st : LBState) (ph : String) (m : Metrics) (now : ℚ) :
    alookup (updStep st ph m now).session_metrics ph = alookup st.session_metrics ph ∨
      ∃ m2, alookup (updStep st ph m now).session_metrics ph = some m2 ∧
        m2.health_score = m.health_score ∧ m2.status = m.status := by
  simp only [updStep]
  split
  · exact Or.inl rfl
  · refine Or.inr ⟨_, alookup_dinsert_self _ _ _, ?_, ?_⟩ <;>
    · repeat' split
      all_goals rfl

theorem updStep_pGet_self_low (st : LBState) (ph : String) (m : Metrics) (now : ℚ)
    (hlow : m.operations.isNone ∨ m.operations.getD 0 < 10) :
    priorityGet (updStep st ph m now) ph = priorityGet st ph := by
  unfold priorityGet
  simp only [updStep]
  rw [if_pos (by simpa using hlow)]
  exact ensure_getD _ _

theorem clamp_adj_bounds (x : Int) : -2 ≤ max (min x 2) (-2) ∧ max (min x 2) (-2) ≤ 2 := by
  constructor
  · exact le_max_right _ _
  · exact max_le (min_le_right _ _) (by norm_num)

theorem priorities_step_clamp (d : List (String × Int)) (ph : String) (adj : Int) :
    ∃ a : Int, -2 ≤ a ∧ a ≤ 2 ∧
      (let pr0 := if (alookup d ph).isSome then d else dinsert d ph 5
       let cur := (alookup pr0 ph).getD 5
       let capped := max (min adj 2) (-2)
       let new_priority := max (min (cur + capped) 10) 1
       (alookup (if new_priority ≠ cur then dinsert pr0 ph new_priority else pr0) ph).getD 5) =
      max (min ((alookup d ph).getD 5 + a) 10) 1 := by
  refine ⟨max (min adj 2) (-2), (clamp_adj_bounds adj).1, (clamp_adj_bounds adj).2, ?_⟩
  simp only []
  rw [ensure_getD]
  split
  · rw [alookup_dinsert_self]
    rfl
  · next hne =>
    push_neg at hne
    rw [ensure_getD, hne]

theorem updStep_pGet_self (st : LBState) (ph : String) (m : Metrics) (now : ℚ) :
    priorityGet (updStep st ph m now) ph = priorityGet st ph ∨
    ∃ adj : Int, -2 ≤ adj ∧ adj ≤ 2 ∧
      priorityGet (updStep st ph m now) ph =
        max (min (priorityGet st ph + adj) 10) 1 := by
  unfold priorityGet
  simp only [updStep]
  split
  · exact Or.inl (ensure_getD _ _)
  · exact Or.inr (priorities_step_clamp st.session_priorities ph _)

theorem upd_fold_pGet_notmem (now : ℚ) (A : String) :
    ∀ (l : List (String × Metrics)) (st : LBState), A ∉ l.map Prod.fst →
      priorityGet (l.foldl (fun st2 pm => updStep st2 pm.1 pm.2 now) st) A =
        priorityGet st A := by
  intro l
  induction l with
  | nil => intro st _; rfl
  | cons p rest ih =>
    intro st h
    simp only [List.map_cons, List.mem_cons] at h
    push_neg at h
    obtain ⟨h1, h2⟩ := h
    rw [List.foldl_cons, ih _ h2]
    unfold priorityGet
    rw [updStep_priorities_ne _ _ _ _ _ h1]

theorem upd_fold_pGet (now : ℚ) (A : String) :
    ∀ (l : List (String × Metrics)) (st : LBState), (l.map Prod.fst).Nodup →
      (alookup l A = none →
        priorityGet (l.foldl (fun st2 pm => updStep st2 pm.1 pm.2 now) st) A =
          priorityGet st A) ∧
      (∀ m, alookup l A = some m →
        ((m.operations.isNone ∨ m.operations.getD 0 < 10) →
          priorityGet (l.foldl (fun st2 pm => updStep st2 pm.1 pm.2 now) st) A =
            priorityGet st A) ∧
        (∃ adj : Int, -2 ≤ adj ∧ adj ≤ 2 ∧
          (priorityGet (l.foldl (fun st2 pm => updStep st2 pm.1 pm.2 now) st) A =
              priorityGet st A ∨
           priorityGet (l.foldl (fun st2 pm => updStep st2 pm.1 pm.2 now) st) A =
              max (min (priorityGet st A + adj) 10) 1))) := by
  intro l
  induction l with
  | nil =>
    intro st _
    exact ⟨fun _ => rfl, fun m hm => by cases hm⟩
  | cons p rest ih =>
    intro st hnd
    obtain ⟨k0, m0⟩ := p
    simp only [List.map_cons, List.nodup_cons] at hnd
    obtain ⟨hk0, hnd2⟩ := hnd
    by_cases hA : k0 = A
    · subst hA
      constructor
      · intro hnone
        simp [alookup] at hnone
      · intro m hm
        have hm0 : m0 = m := by simpa [alookup] using hm
        subst hm0
        have hpres : ∀ st2 : LBState,
            priorityGet (rest.foldl (fun st3 pm => updStep st3 pm.1 pm.2 now) st2) k0 =
              priorityGet st2 k0 :=
          fun st2 => upd_fold_pGet_notmem now k0 rest st2 hk0
        constructor
        · intro hlow
          rw [List.foldl_cons, hpres, updStep_pGet_self_low _ _ _ _ hlow]
        · rcases updStep_pGet_self st k0 m0 now with hs | ⟨adj, h1, h2, h3⟩
          · exact ⟨0, by norm_num, by norm_num,
              Or.inl (by rw [List.foldl_cons, hpres, hs])⟩
          · exact ⟨adj, h1, h2,
              Or.inr (by rw [List.foldl_cons, hpres, h3])⟩
    · have hstep : priorityGet (updStep st k0 m0 now) A = priorityGet st A := by
        unfold priorityGet
        rw [updStep_priorities_ne _ _ _ _ _ (fun hh => hA hh.symm)]
      have hlk : alookup ((k0, m0) :: rest) A = alookup rest A := by
        simp [alookup, hA]
      obtain ⟨ih1, ih2⟩ := ih (updStep st k0 m0 now) hnd2
      constructor
      · intro hnone
        rw [hlk] at hnone
        rw [List.foldl_cons, ih1 hnone, hstep]
      · intro m hm
        rw [hlk] at hm
        obtain ⟨low2, ⟨adj, h1, h2, h3⟩⟩ := ih2 m hm
        constructor
        · intro hlow
          rw [List.foldl_cons, low2 hlow, hstep]
        · refine ⟨adj, h1, h2, ?_⟩
          rw [List.foldl_cons]
          rcases h3 with h3 | h3
          · exact Or.inl (by rw [h3, hstep])
          · exact Or.inr (by rw [h3, hstep])

/-- C8: after any single `update_session_priorities` cycle (over a
duplicate-free metrics dict), every session's effective priority changes by
at most 2 and, when it started within `[1, 10]`, remains within `[1, 10]`;
a session whose metrics record fewer than 10 operations (or none at all, or
no metrics entry) keeps its prior effective priority unchanged. -/
theorem c8_priority_bounds (s : LBState) (now : ℚ) (A : String)
    (hnodup : (s.session_metrics.map Prod.fst).Nodup) :
    ((1 ≤ priorityGet s A ∧ priorityGet s A ≤ 10) →
      |priorityGet (update_session_priorities s now) A - priorityGet s A| ≤ 2 ∧
      1 ≤ priorityGet (update_session_priorities s now) A ∧
      priorityGet (update_session_priorities s now) A ≤ 10) ∧
    (∀ m, alookup s.session_metrics A = some m →
      (m.operations.isNone ∨ m.operations.getD 0 < 10) →
      priorityGet (update_session_priorities s now) A = priorityGet s A) ∧
    (alookup s.session_metrics A = none →
      priorityGet (update_session_priorities s now) A = priorityGet s A) := by
  have H := upd_fold_pGet now A s.session_metrics s hnodup
  unfold update_session_priorities
  refine ⟨?_, fun m hm hlow => (H.2 m hm).1 hlow, fun hn => H.1 hn⟩
  rintro ⟨hp1, hp2⟩
  cases hm : alookup s.session_metrics A with
  | none =>
    rw [H.1 hm]
    refine ⟨by simp, hp1, hp2⟩
  | some m =>
    obtain ⟨adj, h1, h2, h3⟩ := (H.2 m hm).2
    rcases h3 with h3 | h3 <;> rw [h3]
    · refine ⟨by simp, hp1, hp2⟩
    · refine ⟨?_, ?_, ?_⟩
      · rw [abs_le]
        constructor <;> omega
      · omega
      · omega

/-- Concrete state for the `c8_priority_bounds` witness: a session with 12
recorded operations and priority 5. -/
def s8w : LBState :=
  { session_metrics := [("a", { registerMetrics with operations := some 12 })],
    session_priorities := [("a", 5)] }

theorem c8_priority_bounds_witness :
    (s8w.session_metrics.map Prod.fst).Nodup ∧
      (1 ≤ priorityGet s8w "a" ∧ priorityGet s8w "a" ≤ 10) ∧
      (|priorityGet (update_session_priorities s8w 100) "a" - priorityGet s8w "a"| ≤ 2 ∧
       1 ≤ priorityGet (update_session_priorities s8w 100) "a" ∧
       priorityGet (update_session_priorities s8w 100) "a" ≤ 10) :=
  ⟨by simp [s8w], by norm_num [priorityGet, s8w, alookup],
    (c8_priority_bounds s8w 100 "a" (by simp [s8w])).1
      (by norm_num [priorityGet, s8w, alookup])⟩

/-! ### C6: safe_execute flood-wait retry contract -/

/-- Trace events that are invocations of the wrapped function. -/
def isAttemptEv : FwEv → Bool
  | .attempt _ => true
  | _ => false

theorem safeExecAux_trace_head (outs : Nat → FwOut) (jit : Nat → ℚ) (eb : Bool)
    (maxA k fuel : Nat) :
    ∃ t, (safeExecAux outs jit eb maxA k (fuel + 1)).2 = FwEv.attempt k :: t := by
  cases houts : outs k <;> simp only [safeExecAux, houts]
  · exact ⟨_, rfl⟩
  · split
    · exact ⟨_, rfl⟩
    · exact ⟨_, rfl⟩
  · split
    · exact ⟨_, rfl⟩
    · exact ⟨_, rfl⟩
  · exact ⟨_, rfl⟩

theorem safeExecAux_attempt_ge (outs : Nat → FwOut) (jit : Nat → ℚ) (eb : Bool)
    (maxA : Nat) :
    ∀ fuel k n, FwEv.attempt n ∈ (safeExecAux outs jit eb maxA k fuel).2 → k ≤ n := by
  intro fuel
  induction fuel with
  | zero =>
    intro k n h
    simp [safeExecAux] at h
  | succ f ih =>
    intro k n h
    cases houts : outs k <;> simp only [safeExecAux, houts] at h
    · simp at h
      omega
    · split at h
      · simp at h
        rcases h with h | h
        · omega
        · have := ih (k + 1) n h
          omega
      · simp at h
        omega
    · split at h
      · simp at h
        rcases h with h | h
        · omega
        · have := ih (k + 1) n h
          omega
      · simp at h
        omega
    · simp at h
      omega

theorem safeExecAux_flood_infix (outs : Nat → FwOut) (jit : Nat → ℚ) (eb : Bool)
    (maxA n W : Nat) (houts : outs n = FwOut.floodWait W) :
    ∀ fuel k, k ≤ n →
      FwEv.attempt (n + 1) ∈ (safeExecAux outs jit eb maxA k fuel).2 →
      ∃ l r, (safeExecAux outs jit eb maxA k fuel).2 =
        l ++ [FwEv.attempt n, FwEv.sleepEv (W : ℚ), FwEv.attempt (n + 1)] ++ r := by
  intro fuel
  induction fuel with
  | zero =>
    intro k _ h
    simp [safeExecAux] at h
  | succ f ih =>
    intro k hk h
    cases houtk : outs k with
    | ok v =>
      simp only [safeExecAux, houtk] at h ⊢
      simp at h
      omega
    | floodWait w =>
      simp only [safeExecAux, houtk] at h ⊢
      split at h
      · next hlt =>
        rw [if_pos hlt]
        by_cases hkn : k = n
        · subst hkn
          have hw : w = W := by
            rw [houtk] at houts
            cases houts
            rfl
          subst hw
          simp only [List.mem_cons] at h
          rcases h with h | h | h
          · simp at h
          · cases h
          · cases f with
            | zero =>
              simp [safeExecAux] at h
            | succ f2 =>
              obtain ⟨t, ht⟩ := safeExecAux_trace_head outs jit eb maxA (k + 1) f2
              refine ⟨[], t, ?_⟩
              rw [ht]
              rfl
        · simp only [List.mem_cons] at h
          rcases h with h | h | h
          · simp at h
            omega
          · cases h
          · obtain ⟨l, r, hlr⟩ := ih (k + 1) (by omega) h
            refine ⟨FwEv.attempt k :: FwEv.sleepEv (w : ℚ) :: l, r, ?_⟩
            rw [hlr]
            rfl
      · simp at h
        omega
    | serverErr =>
      simp only [safeExecAux, houtk] at h ⊢
      split at h
      · next hlt =>
        rw [if_pos hlt]
        have hkn : k ≠ n := by
          intro hh
          rw [hh, houts] at houtk
          cases houtk
        simp only [List.mem_cons] at h
        rcases h with h | h | h
        · simp at h
          omega
        · cases h
        · obtain ⟨l, r, hlr⟩ := ih (k + 1) (by omega) h
          refine ⟨FwEv.attempt k ::
            FwEv.sleepEv (if eb then min 30 ((2 : ℚ) ^ (k + 1) + jit (k + 1)) else 5) :: l,
            r, ?_⟩
          rw [hlr]
          rfl
      · simp at h
        omega
    | otherErr =>
      simp only [safeExecAux, houtk] at h ⊢
      simp at h
      omega

theorem safeExecAux_all_flood (outs : Nat → FwOut) (jit : Nat → ℚ) (eb : Bool)
    (maxA : Nat) (ws : Nat → Nat)
    (hall : ∀ i, i < maxA → outs i = FwOut.floodWait (ws i)) :
    ∀ fuel k, k + fuel = maxA → k < maxA →
      (safeExecAux outs jit eb maxA k fuel).1 =
          SEResult.exc (FwErr.floodWait (ws (maxA - 1))) ∧
        ((safeExecAux outs jit eb maxA k fuel).2.filter isAttemptEv).length = fuel := by
  intro fuel
  induction fuel with
  | zero =>
    intro k hk hlt
    omega
  | succ f ih =>
    intro k hk hlt
    have houtk : outs k = FwOut.floodWait (ws k) := hall k hlt
    simp only [safeExecAux, houtk]
    by_cases hlt2 : k + 1 < maxA
    · rw [if_pos hlt2]
      obtain ⟨ih1, ih2⟩ := ih (k + 1) (by omega) hlt2
      refine ⟨ih1, ?_⟩
      simp only [List.filter, isAttemptEv]
      rw [List.length_cons, ih2]
    · rw [if_neg hlt2]
      have hf : f = 0 := by omega
      have hk1 : k = maxA - 1 := by omega
      subst hk1
      refine ⟨rfl, ?_⟩
      simp [List.filter, isAttemptEv, hf]

/-- C6: the flood-wait retry contract of `safe_execute`.  (1) Whenever the
wrapped call's `n`-th invocation raises a flood-wait error carrying a
required wait of `W` seconds and a next invocation happens, the trace shows a
sleep of exactly `W` seconds (hence at least `W`, never shortened)
immediately between the two invocations.  (2) When every attempt raises a
flood-wait error, `safe_execute` makes exactly `max_attempts` invocations and
re-raises the last error. -/
theorem c6_flood_wait_retry (outs : Nat → FwOut) (jit : Nat → ℚ) (eb : Bool)
    (maxA n W : Nat) (ws : Nat → Nat) :
    ((outs n = FwOut.floodWait W ∧
        FwEv.attempt (n + 1) ∈ (safe_execute outs jit maxA eb).2) →
      ∃ l r, (safe_execute outs jit maxA eb).2 =
        l ++ [FwEv.attempt n, FwEv.sleepEv (W : ℚ), FwEv.attempt (n + 1)] ++ r) ∧
    ((1 ≤ maxA ∧ ∀ i, i < maxA → outs i = FwOut.floodWait (ws i)) →
      (safe_execute outs jit maxA eb).1 =
          SEResult.exc (FwErr.floodWait (ws (maxA - 1))) ∧
        ((safe_execute outs jit maxA eb).2.filter isAttemptEv).length = maxA) := by
  constructor
  · rintro ⟨houts, hmem⟩
    exact safeExecAux_flood_infix outs jit eb maxA n W houts maxA 0 (Nat.zero_le n) hmem
  · rintro ⟨hpos, hall⟩
    exact safeExecAux_all_flood outs jit eb maxA ws hall maxA 0 (by omega) (by omega)

/-- Attempt outcomes for the `c6_flood_wait_retry` witness: the first call
raises a 42s flood wait, later calls succeed. -/
def outsA : Nat → FwOut := fun n => if n = 0 then FwOut.floodWait 42 else FwOut.ok 7

/-- Attempt outcomes where every call raises a 9s flood wait. -/
def outsB : Nat → FwOut := fun _ => FwOut.floodWait 9

/-- Zero jitter. -/
def jit0 : Nat → ℚ := fun _ => 0

theorem c6_flood_wait_retry_witness :
    (outsA 0 = FwOut.floodWait 42 ∧
        FwEv.attempt (0 + 1) ∈ (safe_execute outsA jit0 3 true).2) ∧
      (∃ l r, (safe_execute outsA jit0 3 true).2 =
        l ++ [FwEv.attempt 0, FwEv.sleepEv ((42 : Nat) : ℚ), FwEv.attempt (0 + 1)] ++ r) ∧
      ((1 ≤ 2 ∧ ∀ i, i < 2 → outsB i = FwOut.floodWait 9) ∧
        ((safe_execute outsB jit0 2 true).1 = SEResult.exc (FwErr.floodWait 9) ∧
          ((safe_execute outsB jit0 2 true).2.filter isAttemptEv).length = 2)) := by
  have h1 : outsA 0 = FwOut.floodWait 42 ∧
      FwEv.attempt (0 + 1) ∈ (safe_execute outsA jit0 3 true).2 := by
    refine ⟨rfl, ?_⟩
    simp [safe_execute, safeExecAux, outsA]
  have h2 : (1 ≤ 2 ∧ ∀ i, i < 2 → outsB i = FwOut.floodWait 9) := by
    exact ⟨by norm_num, fun i _ => rfl⟩
  exact ⟨h1, (c6_flood_wait_retry outsA jit0 true 3 0 42 (fun _ => 9)).1 h1,
    h2, (c6_flood_wait_retry outsB jit0 true 2 0 9 (fun _ => 9)).2 h2⟩

/-! ### Selection lemmas shared by C1 and C5 -/

theorem iic_true_of_active (s : LBState) (A : String) (now c : ℚ)
    (hc : alookup s.session_cooldowns A = some c) (hnow : now ≤ c) :
    is_in_cooldown s A now = (s, true) := by
  unfold is_in_cooldown
  rw [hc]
  dsimp only
  rw [if_neg (by linarith : ¬ now > c)]

theorem iic_fst_metrics (s : LBState) (p : String) (now : ℚ) :
    (is_in_cooldown s p now).1.session_metrics = s.session_metrics := by
  cases h : alookup s.session_cooldowns p <;> simp only [is_in_cooldown, h]
  split <;> rfl

theorem iic_fst_active (s : LBState) (p : String) (now : ℚ) :
    (is_in_cooldown s p now).1.active_clients = s.active_clients := by
  cases h : alookup s.session_cooldowns p <;> simp only [is_in_cooldown, h]
  split <;> rfl

theorem iic_cooldown_pres (s : LBState) (p A : String) (now c : ℚ)
    (hc : alookup s.session_cooldowns A = some c) (hnow : now ≤ c) :
    alookup (is_in_cooldown s p now).1.session_cooldowns A = some c := by
  by_cases hpA : p = A
  · subst hpA
    rw [iic_true_of_active s p now c hc hnow]
    exact hc
  · cases h : alookup s.session_cooldowns p <;> simp only [is_in_cooldown, h]
    · exact hc
    · split
      · dsimp only
        rw [alookup_ddelete_ne _ _ _ (fun hh => hpA hh.symm)]
        exact hc
      · exact hc

theorem availLoop_cooled (b : Bool) (A : String) (c : ℚ) (now : ℚ)
    (hnow : now ≤ c) :
    ∀ (l : List String) (s : LBState),
      alookup s.session_cooldowns A = some c →
      (availLoop b s now l).1.session_metrics = s.session_metrics ∧
      alookup (availLoop b s now l).1.session_cooldowns A = some c ∧
      A ∉ (availLoop b s now l).2.map Prod.snd := by
  intro l
  induction l with
  | nil =>
    intro s hc
    exact ⟨rfl, hc, by simp [availLoop]⟩
  | cons p rest ih =>
    intro s hc
    simp only [availLoop]
    split
    · -- p has a registered client
      have hcp : alookup (is_in_cooldown s p now).1.session_cooldowns A = some c :=
        iic_cooldown_pres s p A now c hc hnow
      split
      · -- in cooldown: skip
        obtain ⟨hm, hcd, hnm⟩ := ih (is_in_cooldown s p now).1 hcp
        exact ⟨hm.trans (iic_fst_metrics s p now), hcd, hnm⟩
      · -- not in cooldown: p is collected, and p ≠ A
        next hic =>
        have hpA : p ≠ A := by
          intro hh
          subst hh
          rw [iic_true_of_active s p now c hc hnow] at hic
          exact hic rfl
        obtain ⟨hm, hcd, hnm⟩ := ih (is_in_cooldown s p now).1 hcp
        refine ⟨hm.trans (iic_fst_metrics s p now), hcd, ?_⟩
        simp only [List.map_cons, List.mem_cons]
        rintro (hh | hh)
        · exact hpA hh.symm
        · exact hnm hh
    · exact ih s hc

theorem availLoop_all_cooling (b : Bool) (now : ℚ) :
    ∀ (l : List String) (s : LBState),
      (∀ ph ∈ l, ph ∈ s.active_clients →
        ∃ c, alookup s.session_cooldowns ph = some c ∧ now ≤ c) →
      availLoop b s now l = (s, []) := by
  intro l
  induction l with
  | nil => intro s _; rfl
  | cons p rest ih =>
    intro s hall
    simp only [availLoop]
    split
    · next hact =>
      obtain ⟨c, hc, hnow⟩ := hall p (by simp) hact
      rw [iic_true_of_active s p now c hc hnow]
      simp only [if_true]
      exact ih s (fun ph hph => hall ph (by simp [hph]))
    · exact ih s (fun ph hph => hall ph (by simp [hph]))

theorem foldl_pairGt_mem (xs : List (ℚ × String)) :
    ∀ a, xs.foldl (fun acc y => if pairGt y acc then y else acc) a ∈ a :: xs := by
  induction xs with
  | nil => intro a; simp
  | cons y ys ih =>
    intro a
    simp only [List.foldl_cons]
    have h := ih (if pairGt y a then y else a)
    rw [List.mem_cons] at h
    rcases h with h | h
    · rw [h]
      split
      · simp
      · simp
    · simp [h]

theorem bestOf_mem (l : List (ℚ × String)) (x : ℚ × String) (h : bestOf l = some x) :
    x ∈ l := by
  cases l with
  | nil => cases h
  | cons a xs =>
    simp only [bestOf, Option.some.injEq] at h
    rw [← h]
    exact foldl_pairGt_mem xs a

theorem lastResort_not_cooling (s : LBState) (A : String) (mA : Metrics)
    (hmA : alookup s.session_metrics A = some mA) (hst : mA.status = some "cooling") :
    ∀ (l : List String), lastResort s l ≠ Except.ok (some A) := by
  intro l
  induction l with
  | nil => simp [lastResort]
  | cons p rest ih =>
    simp only [lastResort]
    split
    · cases hmp : alookup s.session_metrics p with
      | none =>
        simp only [hmp]
        exact ih
      | some m =>
        simp only [hmp]
        cases hstp : m.status with
        | none =>
          simp only [hstp]
          simp
        | some st =>
          simp only [hstp]
          split
          · next hne =>
            intro hh
            simp only [Except.ok.injEq, Option.some.injEq] at hh
            subst hh
            rw [hmA] at hmp
            cases hmp
            rw [hstp] at hst
            cases hst
            exact hne rfl
          · exact ih
    · exact ih

theorem lastResort_all_cooling (s : LBState) :
    ∀ (l : List String),
      (∀ ph ∈ l, ph ∈ s.active_clients →
        ∃ m, alookup s.session_metrics ph = some m ∧ m.status = some "cooling") →
      lastResort s l = Except.ok none := by
  intro l
  induction l with
  | nil => intro _; rfl
  | cons p rest ih =>
    intro hall
    simp only [lastResort]
    split
    · next hcond =>
      obtain ⟨m, hm, hst⟩ := hall p (by simp) hcond.1
      simp only [hm, hst]
      rw [if_neg (by simp)]
      exact ih (fun ph hph => hall ph (by simp [hph]))
    · exact ih (fun ph hph => hall ph (by simp [hph]))

theorem alookup_of_mem_nodup {β : Type} :
    ∀ (l : List (String × β)) (k : String) (v : β),
      (l.map Prod.fst).Nodup → (k, v) ∈ l → alookup l k = some v := by
  intro l
  induction l with
  | nil => intro k v _ h; cases h
  | cons a rest ih =>
    intro k v hnd h
    obtain ⟨a1, a2⟩ := a
    simp only [List.map_cons, List.nodup_cons] at hnd
    rw [List.mem_cons] at h
    rcases h with h | h
    · cases h
      simp [alookup]
    · have hne : a1 ≠ k := by
        intro hh
        subst hh
        exact hnd.1 (List.mem_map.mpr ⟨(a1, v), h, rfl⟩)
      simp only [alookup, if_neg hne]
      exact ih k v hnd.2 h

theorem mem_keys_dinsert {β : Type} :
    ∀ (d : List (String × β)) (k a : String) (v : β),
      (a ∈ (dinsert d k v).map Prod.fst ↔ a ∈ d.map Prod.fst ∨ a = k) := by
  intro d
  induction d with
  | nil =>
    intro k a v
    simp [dinsert]
  | cons p rest ih =>
    intro k a v
    obtain ⟨k0, v0⟩ := p
    by_cases hk : k0 = k
    · subst hk
      simp only [dinsert, if_true, List.map_cons, List.mem_cons]
      tauto
    · simp only [dinsert, if_neg hk, List.map_cons, List.mem_cons, ih]
      tauto

theorem nodup_keys_dinsert {β : Type} :
    ∀ (d : List (String × β)) (k : String) (v : β),
      (d.map Prod.fst).Nodup → ((dinsert d k v).map Prod.fst).Nodup := by
  intro d
  induction d with
  | nil => intro k v _; simp [dinsert]
  | cons p rest ih =>
    intro k v hnd
    obtain ⟨k0, v0⟩ := p
    simp only [List.map_cons, List.nodup_cons] at hnd
    by_cases hk : k0 = k
    · subst hk
      simp only [dinsert, if_true, List.map_cons, List.nodup_cons]
      exact hnd
    · simp only [dinsert, if_neg hk, List.map_cons, List.nodup_cons]
      refine ⟨?_, ih k v hnd.2⟩
      rw [mem_keys_dinsert]
      rintro (h | h)
      · exact hnd.1 h
      · exact hk h

theorem updStep_metrics_keys_nodup (st : LBState) (ph : String) (m : Metrics)
    (now : ℚ) (h : (st.session_metrics.map Prod.fst).Nodup) :
    ((updStep st ph m now).session_metrics.map Prod.fst).Nodup := by
  simp only [updStep]
  split
  · exact h
  · exact nodup_keys_dinsert _ _ _ h

theorem upd_fold_frame (now : ℚ) :
    ∀ (l : List (String × Metrics)) (st : LBState),
      (l.foldl (fun st2 pm => updStep st2 pm.1 pm.2 now) st).session_cooldowns =
          st.session_cooldowns ∧
        (l.foldl (fun st2 pm => updStep st2 pm.1 pm.2 now) st).active_clients =
          st.active_clients ∧
        (l.foldl (fun st2 pm => updStep st2 pm.1 pm.2 now) st).sessions =
          st.sessions := by
  intro l
  induction l with
  | nil => intro st; exact ⟨rfl, rfl, rfl⟩
  | cons p rest ih =>
    intro st
    rw [List.foldl_cons]
    obtain ⟨h1, h2, h3⟩ := ih (updStep st p.1 p.2 now)
    exact ⟨h1.trans (updStep_cooldowns _ _ _ _),
      h2.trans (updStep_active _ _ _ _),
      h3.trans (updStep_sessions _ _ _ _)⟩

theorem upd_fold_metrics_notmem (now : ℚ) (A : String) :
    ∀ (l : List (String × Metrics)) (st : LBState), A ∉ l.map Prod.fst →
      alookup (l.foldl (fun st2 pm => updStep st2 pm.1 pm.2 now) st).session_metrics A =
        alookup st.session_metrics A := by
  intro l
  induction l with
  | nil => intro st _; rfl
  | cons p rest ih =>
    intro st h
    simp only [List.map_cons, List.mem_cons] at h
    push_neg at h
    rw [List.foldl_cons, ih _ h.2]
    exact updStep_metrics_ne _ _ _ _ _ h.1

theorem upd_fold_metrics_proj (now : ℚ) (A : String) :
    ∀ (l : List (String × Metrics)) (st : LBState),
      (l.map Prod.fst).Nodup →
      (∀ m, (A, m) ∈ l → alookup st.session_metrics A = some m) →
      (alookup (l.foldl (fun st2 pm => updStep st2 pm.1 pm.2 now) st).session_metrics A).map
          (fun m => (m.health_score, m.status)) =
        (alookup st.session_metrics A).map (fun m => (m.health_score, m.status)) := by
  intro l
  induction l with
  | nil => intro st _ _; rfl
  | cons p rest ih =>
    intro st hnd hv
    obtain ⟨k0, m0⟩ := p
    simp only [List.map_cons, List.nodup_cons] at hnd
    rw [List.foldl_cons]
    by_cases hk : k0 = A
    · subst hk
      have hst : alookup st.session_metrics k0 = some m0 := hv m0 (by simp)
      rw [upd_fold_metrics_notmem now k0 rest _ hnd.1]
      rcases updStep_metrics_self st k0 m0 now with h | ⟨m2, h2, hh, hs⟩
      · rw [h]
      · rw [h2, hst]
        simp [hh, hs]
    · have hstep : alookup (updStep st k0 m0 now).session_metrics A =
          alookup st.session_metrics A :=
        updStep_metrics_ne _ _ _ _ _ (fun hh => hk hh.symm)
      rw [ih (updStep st k0 m0 now) hnd.2 (fun m hm => by rw [hstep]; exact hv m (by simp [hm])),
        hstep]

theorem upd_fold_metrics_nodup (now : ℚ) :
    ∀ (l : List (String × Metrics)) (st : LBState),
      (st.session_metrics.map Prod.fst).Nodup →
      ((l.foldl (fun st2 pm => updStep st2 pm.1 pm.2 now) st).session_metrics.map Prod.fst).Nodup := by
  intro l
  induction l with
  | nil => intro st h; exact h
  | cons p rest ih =>
    intro st h
    rw [List.foldl_cons]
    exact ih _ (updStep_metrics_keys_nodup _ _ _ _ h)

theorem gbcSelect_not_cooled (s1 : LBState) (A : String) (c : ℚ) (m1 : Metrics)
    (purpose : String) (now : ℚ)
    (hc : alookup s1.session_cooldowns A = some c) (hnow : now ≤ c)
    (hm : alookup s1.session_metrics A = some m1) (hst : m1.status = some "cooling") :
    (gbcSelect s1 purpose now).2 ≠ Except.ok (some A) := by
  unfold gbcSelect
  cases hp : resolvePool s1 purpose with
  | none => simp
  | some pool =>
    simp only []
    obtain ⟨hP1, hP2, hP3⟩ := availLoop_cooled false A c now hnow pool.primary s1 hc
    by_cases hPempty : (availLoop false s1 now pool.primary).2 = []
    · rw [if_pos hPempty]
      obtain ⟨hB1, hB2, hB3⟩ :=
        availLoop_cooled true A c now hnow pool.backup (availLoop false s1 now pool.primary).1 hP2
      cases hb : bestOf (availLoop true (availLoop false s1 now pool.primary).1 now pool.backup).2 with
      | some best =>
        simp only []
        intro hh
        simp only [Except.ok.injEq, Option.some.injEq] at hh
        exact hB3 (List.mem_map.mpr ⟨best, bestOf_mem _ _ hb, hh⟩)
      | none =>
        simp only []
        have hmB : alookup (availLoop true (availLoop false s1 now pool.primary).1 now pool.backup).1.session_metrics A = some m1 := by
          rw [hB1, hP1]
          exact hm
        exact lastResort_not_cooling _ A m1 hmB hst _
    · rw [if_neg hPempty]
      cases hb : bestOf (availLoop false s1 now pool.primary).2 with
      | some best =>
        simp only []
        intro hh
        simp only [Except.ok.injEq, Option.some.injEq] at hh
        exact hP3 (List.mem_map.mpr ⟨best, bestOf_mem _ _ hb, hh⟩)
      | none =>
        simp only []
        have hmP : alookup (availLoop false s1 now pool.primary).1.session_metrics A = some m1 := by
          rw [hP1]
          exact hm
        exact lastResort_not_cooling _ A m1 hmP hst _

/-! ### C1: get_best_client fallback behaviour -/

/-- A freshly registered metrics dict that has been put in cooling state. -/
def coolingMetrics : Metrics := { registerMetrics with status := some "cooling" }

/-- One registered session, in an active cooldown until t=500. -/
def exC1 : LBState :=
  { active_clients := ["p1"],
    session_metrics := [("p1", coolingMetrics)],
    sessions := [("general", ⟨["p1"], []⟩)],
    session_cooldowns := [("p1", 500)],
    last_health_check := 100,
    last_priority_update := 100 }

/-- C1 counterexample: with exactly one registered session, which is in
cooldown, `get_best_client` returns `(None, None)` — it does not fall back to
the session with least remaining cooldown (that fallback lives only in the
shadowed, `operation_type`-keyed definition), contradicting the claim that a
session is always returned. -/
theorem c1_counterexample :
    "p1" ∈ exC1.active_clients ∧
      (get_best_client exC1 "general" 120).2 = Except.ok none := by
  constructor
  · simp [exC1]
  · norm_num [get_best_client, exC1, gbcSelect, resolvePool, alookup, availLoop,
      is_in_cooldown, lastResort, bestOf, coolingMetrics, registerMetrics]

/-- C1 (amended): (1) whenever the health-check interval has elapsed
(`now - last_health_check > 60` — true on the first call, since
`last_health_check` starts at 0 and is only ever advanced after the
undefined `check_all_sessions_health` call returns, which it never does),
`get_best_client` raises `AttributeError` instead of returning a session.
(2) When the health-check and priority-update branches are skipped and every
pooled session with a registered client is in an active cooldown with status
"cooling", `get_best_client` returns `(None, None)`: there is no
least-remaining-cooldown or first-registered fallback in the effective
(purpose-keyed) definition. -/
theorem c1_get_best_client_amended :
    (∀ (s : LBState) (purpose : String) (now : ℚ),
       now - s.last_health_check > 60 →
       (get_best_client s purpose now).2 = Except.error PyErr.attributeError) ∧
    (∀ (s : LBState) (purpose : String) (pool : Pool) (now : ℚ),
       ¬(now - s.last_health_check > 60) →
       ¬(now - s.last_priority_update > 600) →
       alookup s.sessions purpose = some pool →
       (∀ ph ∈ pool.primary ++ pool.backup, ph ∈ s.active_clients →
         (∃ c, alookup s.session_cooldowns ph = some c ∧ now ≤ c) ∧
         (∃ m, alookup s.session_metrics ph = some m ∧ m.status = some "cooling")) →
       (get_best_client s purpose now).2 = Except.ok none) := by
  constructor
  · intro s purpose now h
    unfold get_best_client
    rw [if_pos h]
  · intro s purpose pool now h1 h2 hres hall
    unfold get_best_client
    rw [if_neg h1]
    simp only [if_neg h2]
    unfold gbcSelect
    have hrp : resolvePool s purpose = some pool := by
      unfold resolvePool
      rw [hres]
    rw [hrp]
    simp only []
    have hP : availLoop false s now pool.primary = (s, []) :=
      availLoop_all_cooling false now pool.primary s
        (fun ph hph hact => (hall ph (List.mem_append_left _ hph) hact).1)
    rw [hP]
    simp only [if_true]
    have hB : availLoop true s now pool.backup = (s, []) :=
      availLoop_all_cooling true now pool.backup s
        (fun ph hph hact => (hall ph (List.mem_append_right _ hph) hact).1)
    rw [hB]
    simp only [bestOf]
    exact lastResort_all_cooling s _
      (fun ph hph hact => (hall ph hph hact).2)

theorem c1_amended_witness :
    ((120 : ℚ) - exC1.last_health_check ≤ 60 ∧
        (120 : ℚ) - exC1.last_priority_update ≤ 600 ∧
        alookup exC1.sessions "general" = some ⟨["p1"], []⟩) ∧
      (get_best_client exC1 "general" 120).2 = Except.ok none := by
  refine ⟨⟨by norm_num [exC1], by norm_num [exC1], rfl⟩, ?_⟩
  refine c1_get_best_client_amended.2 exC1 "general" ⟨["p1"], []⟩ 120
    (by norm_num [exC1]) (by norm_num [exC1]) rfl ?_
  intro ph hph hact
  have hp : ph = "p1" := by simpa [exC1] using hph
  subst hp
  exact ⟨⟨500, rfl, by norm_num⟩, ⟨coolingMetrics, rfl, rfl⟩⟩

/-- Core of C5: a session with an active cooldown and cooling status is never
selected by `get_best_client`. -/
theorem gbc_not_cooled (s : LBState) (A : String) (c : ℚ) (mA : Metrics)
    (purpose : String) (now : ℚ)
    (hnodup : (s.session_metrics.map Prod.fst).Nodup)
    (hc : alookup s.session_cooldowns A = some c) (hnow : now ≤ c)
    (hm : alookup s.session_metrics A = some mA) (hst : mA.status = some "cooling") :
    (get_best_client s purpose now).2 ≠ Except.ok (some A) := by
  unfold get_best_client
  split
  · simp
  · split
    · have hc1 : alookup ({ update_session_priorities s now with
          last_priority_update := now } : LBState).session_cooldowns A = some c := by
        show alookup (update_session_priorities s now).session_cooldowns A = some c
        unfold update_session_priorities
        rw [(upd_fold_frame now s.session_metrics s).1]
        exact hc
      have hproj : (alookup ({ update_session_priorities s now with
            last_priority_update := now } : LBState).session_metrics A).map
            (fun m => (m.health_score, m.status)) =
          (alookup s.session_metrics A).map (fun m => (m.health_score, m.status)) := by
        show (alookup (update_session_priorities s now).session_metrics A).map _ = _
        unfold update_session_priorities
        exact upd_fold_metrics_proj now A s.session_metrics s hnodup
          (fun m hmem => alookup_of_mem_nodup _ _ _ hnodup hmem)
      rw [hm] at hproj
      cases hm1 : alookup ({ update_session_priorities s now with
          last_priority_update := now } : LBState).session_metrics A with
      | none => rw [hm1] at hproj; cases hproj
      | some m1 =>
        rw [hm1] at hproj
        simp only [Option.map_some', Option.some.injEq, Prod.mk.injEq] at hproj
        exact gbcSelect_not_cooled _ A c m1 purpose now hc1 hnow hm1
          (hproj.2.trans hst)
    · exact gbcSelect_not_cooled s A c mA purpose now hc hnow hm hst

/-! ### C5: forced rotation excludes the avoided session -/

theorem availLoop_metrics (b : Bool) (now : ℚ) :
    ∀ (l : List String) (s : LBState),
      (availLoop b s now l).1.session_metrics = s.session_metrics := by
  intro l
  induction l with
  | nil => intro s; rfl
  | cons p rest ih =>
    intro s
    simp only [availLoop]
    split
    · split
      · exact (ih _).trans (iic_fst_metrics s p now)
      · exact (ih _).trans (iic_fst_metrics s p now)
    · exact ih s

theorem rotAvailLoop_metrics (cur : String) (now : ℚ) :
    ∀ (l : List String) (s : LBState),
      (rotAvailLoop cur s now l).1.session_metrics = s.session_metrics := by
  intro l
  induction l with
  | nil => intro s; rfl
  | cons p rest ih =>
    intro s
    simp only [rotAvailLoop]
    split
    · split
      · exact (ih _).trans (iic_fst_metrics s p now)
      · exact (ih _).trans (iic_fst_metrics s p now)
    · exact ih s

theorem gbcSelect_metrics (s1 : LBState) (purpose : String) (now : ℚ) :
    (gbcSelect s1 purpose now).1.session_metrics = s1.session_metrics := by
  unfold gbcSelect
  cases hp : resolvePool s1 purpose with
  | none => rfl
  | some pool =>
    simp only []
    repeat' split
    all_goals first
      | exact (availLoop_metrics true now pool.backup _).trans
          (availLoop_metrics false now pool.primary s1)
      | exact availLoop_metrics false now pool.primary s1

theorem gbc_metrics_proj (s : LBState) (purpose : String) (now : ℚ) (A : String)
    (hnodup : (s.session_metrics.map Prod.fst).Nodup) :
    (alookup (get_best_client s purpose now).1.session_metrics A).map
        (fun m => (m.health_score, m.status)) =
      (alookup s.session_metrics A).map (fun m => (m.health_score, m.status)) ∧
    ((get_best_client s purpose now).1.session_metrics.map Prod.fst).Nodup := by
  unfold get_best_client
  split
  · exact ⟨rfl, hnodup⟩
  · split
    · rw [gbcSelect_metrics]
      constructor
      · show (alookup (update_session_priorities s now).session_metrics A).map _ = _
        unfold update_session_priorities
        exact upd_fold_metrics_proj now A s.session_metrics s hnodup
          (fun m hmem => alookup_of_mem_nodup _ _ _ hnodup hmem)
      · show ((update_session_priorities s now).session_metrics.map Prod.fst).Nodup
        unfold update_session_priorities
        exact upd_fold_metrics_nodup now s.session_metrics s hnodup
    · rw [gbcSelect_metrics]
      exact ⟨rfl, hnodup⟩

theorem implement_metrics_proj (s : LBState) (purpose cur : String) (now : ℚ)
    (rand : String → ℚ) (A : String)
    (hnodup : (s.session_metrics.map Prod.fst).Nodup) :
    (alookup (implement_session_rotation s purpose cur now rand).1.session_metrics A).map
        (fun m => (m.health_score, m.status)) =
      (alookup s.session_metrics A).map (fun m => (m.health_score, m.status)) ∧
    ((implement_session_rotation s purpose cur now rand).1.session_metrics.map Prod.fst).Nodup := by
  unfold implement_session_rotation
  split
  · exact gbc_metrics_proj s purpose now A hnodup
  · have hfin : ∀ st : LBState, st.session_metrics = s.session_metrics →
        (alookup st.session_metrics A).map (fun m => (m.health_score, m.status)) =
            (alookup s.session_metrics A).map (fun m => (m.health_score, m.status)) ∧
          (st.session_metrics.map Prod.fst).Nodup := by
      intro st h
      rw [h]
      exact ⟨rfl, hnodup⟩
    simp only []
    repeat' split
    all_goals first
      | exact hfin _ ((rotAvailLoop_metrics cur now _ _).trans (rotAvailLoop_metrics cur now _ _))
      | exact hfin _ (rotAvailLoop_metrics cur now _ _)

theorem dinsert_keys_of_present {β : Type} :
    ∀ (d : List (String × β)) (k : String) (v : β),
      (alookup d k).isSome → (dinsert d k v).map Prod.fst = d.map Prod.fst := by
  intro d
  induction d with
  | nil =>
    intro k v h
    simp [alookup] at h
  | cons p rest ih =>
    intro k v h
    obtain ⟨k0, v0⟩ := p
    by_cases hk : k0 = k
    · subst hk
      simp [dinsert]
    · simp only [alookup, if_neg hk] at h
      simp only [dinsert, if_neg hk, List.map_cons]
      rw [ih k v h]

theorem calc_state_frame (s : LBState) (phone et : String) (now jit : ℚ)
    (s' : LBState) (d : Int)
    (h : calculate_adaptive_cooldown s phone et now jit = .ok (s', d)) :
    s'.session_metrics = s.session_metrics ∧
      s'.session_cooldowns = s.session_cooldowns := by
  unfold calculate_adaptive_cooldown at h
  cases hm : alookup s.session_metrics phone with
  | none =>
    rw [hm] at h
    simp only [Except.ok.injEq, Prod.mk.injEq] at h
    rw [← h.1]
    exact ⟨rfl, rfl⟩
  | some metrics =>
    rw [hm] at h
    simp only [] at h
    split at h
    · cases h
    · simp only [Except.ok.injEq, Prod.mk.injEq] at h
      rw [← h.1]
      exact ⟨rfl, rfl⟩

theorem cool_down_post (s : LBState) (A et : String) (now jit : ℚ)
    (s1 : LBState) (d : Int)
    (hm : (alookup s.session_metrics A).isSome)
    (hok : cool_down_session s A et now jit = .ok (s1, d)) :
    alookup s1.session_cooldowns A = some (now + d) ∧
      (∃ m1, alookup s1.session_metrics A = some m1 ∧ m1.status = some "cooling") ∧
      s1.session_metrics.map Prod.fst = s.session_metrics.map Prod.fst := by
  unfold cool_down_session at hok
  cases hcalc : calculate_adaptive_cooldown s A et now jit with
  | error e =>
    rw [hcalc] at hok
    cases hok
  | ok rr =>
    obtain ⟨sc, dur⟩ := rr
    rw [hcalc] at hok
    obtain ⟨hmet, hcd⟩ := calc_state_frame s A et now jit sc dur hcalc
    obtain ⟨m, hmA⟩ := Option.isSome_iff_exists.mp hm
    have hmA2 : alookup sc.session_metrics A = some m := by rw [hmet]; exact hmA
    simp only [] at hok
    rw [hmA2] at hok
    simp only [Except.ok.injEq, Prod.mk.injEq] at hok
    obtain ⟨hs1, hd⟩ := hok
    subst hd
    rw [← hs1]
    refine ⟨alookup_dinsert_self _ _ _, ⟨_, alookup_dinsert_self _ _ _, rfl⟩, ?_⟩
    rw [dinsert_keys_of_present _ _ _ (by rw [hmA2]; rfl), hmet]

/-- C5: after `force_session_rotation(purpose, A)` completes normally for a
registered session A (duplicate-free metrics dict), an immediate
`get_best_client(purpose2)` call never returns A while A's cooldown is still
active (`now2 ≤` the recorded expiry). -/
theorem c5_forced_rotation (s : LBState) (purpose A : String) (now1 jit : ℚ)
    (rand : String → ℚ) (purpose2 : String) (now2 c : ℚ) (r : Option String)
    (hnodup : (s.session_metrics.map Prod.fst).Nodup)
    (hreg : (alookup s.session_metrics A).isSome)
    (hrun : (force_session_rotation s purpose A now1 jit rand).2 = Except.ok r)
    (hc : alookup (force_session_rotation s purpose A now1 jit rand).1.session_cooldowns A
      = some c)
    (hact : now2 ≤ c) :
    (get_best_client (force_session_rotation s purpose A now1 jit rand).1 purpose2 now2).2 ≠
      Except.ok (some A) := by
  unfold force_session_rotation at hrun hc ⊢
  rw [if_pos hreg] at hrun hc ⊢
  cases hcd : cool_down_session s A "forced_rotation" now1 jit with
  | error e =>
    rw [hcd] at hrun
    simp at hrun
  | ok rr =>
    obtain ⟨s1, dur⟩ := rr
    rw [hcd] at hc
    simp only [] at hc ⊢
    obtain ⟨hcdA, ⟨m1, hm1, hst1⟩, hkeys⟩ :=
      cool_down_post s A "forced_rotation" now1 jit s1 dur hreg hcd
    have hnodup1 : (s1.session_metrics.map Prod.fst).Nodup := by
      rw [hkeys]
      exact hnodup
    obtain ⟨hproj, hnodup2⟩ := implement_metrics_proj s1 purpose A now1 rand A hnodup1
    rw [hm1] at hproj
    cases hm2 : alookup (implement_session_rotation s1 purpose A now1 rand).1.session_metrics A with
    | none =>
      rw [hm2] at hproj
      cases hproj
    | some m2 =>
      rw [hm2] at hproj
      simp only [Option.map_some', Option.some.injEq, Prod.mk.injEq] at hproj
      exact gbc_not_cooled _ A c m2 purpose2 now2 hnodup2 hc hact hm2 (hproj.2.trans hst1)

/-- Two registered sessions for the `c5_forced_rotation` witness. -/
def c5s : LBState :=
  { active_clients := ["a", "b"],
    session_metrics := [("a", registerMetrics), ("b", registerMetrics)],
    sessions := [("general", ⟨["a", "b"], []⟩)],
    last_health_check := 100,
    last_priority_update := 100 }

/-- Deterministic zero jitter for the rotation scoring. -/
def rand0 : String → ℚ := fun _ => 0

theorem c5_force_eval :
    force_session_rotation c5s "general" "a" 100 1 rand0 =
      ({ c5s with
          session_cooldowns := [("a", 400)],
          session_metrics := [("a", { registerMetrics with
            status := some "cooling", cooling_start := some 100,
            cooling_duration := some 300, cooling_end := some 400,
            cooling_reason := some "forced_rotation",
            consecutive_errors := some 0,
            successful_ops_since_last_issue := some 0 }), ("b", registerMetrics)],
          session_cooldown_history := [("a", [⟨100, 300, "forced_rotation"⟩])] },
        Except.ok (some "b")) := by
  have hab : ("a" : String) ≠ "b" := by decide
  have hba : ("b" : String) ≠ "a" := by decide
  have ha0 : ("a" : String) ≠ "" := by decide
  norm_num [force_session_rotation, cool_down_session, calculate_adaptive_cooldown,
    c5s, implement_session_rotation, rotAvailLoop, is_in_cooldown, rotScore, minOf,
    pairLt, alookup, dinsert, registerMetrics, severityWeight_forced, rand0, hab, hba,
    ha0]

theorem c5_forced_rotation_witness :
    ((c5s.session_metrics.map Prod.fst).Nodup ∧
        (alookup c5s.session_metrics "a").isSome ∧
        (force_session_rotation c5s "general" "a" 100 1 rand0).2 = Except.ok (some "b") ∧
        alookup (force_session_rotation c5s "general" "a" 100 1 rand0).1.session_cooldowns "a" =
          some 400 ∧
        (150 : ℚ) ≤ 400) ∧
      (get_best_client (force_session_rotation c5s "general" "a" 100 1 rand0).1 "general" 150).2 ≠
        Except.ok (some "a") := by
  have h2 : (force_session_rotation c5s "general" "a" 100 1 rand0).2 = Except.ok (some "b") := by
    rw [c5_force_eval]
  have h3 : alookup (force_session_rotation c5s "general" "a" 100 1 rand0).1.session_cooldowns "a" =
      some 400 := by
    rw [c5_force_eval]
    rfl
  exact ⟨⟨by decide, by decide, h2, h3, by decide⟩,
    c5_forced_rotation c5s "general" "a" 100 1 rand0 "general" 150 400 (some "b")
      (by decide) (by decide) h2 h3 (by decide)⟩

/-! ### C3: execute_with_priority always records the outcome -/

theorem record_op_ts_mem (s : LBState) (phone : String) (success : Bool)
    (error : Option String) (fw : ℚ) (op_type : String) (now : ℚ) :
    ∃ m, alookup (record_operation s phone success error fw op_type now).1.session_metrics phone
        = some m ∧ now ∈ m.operation_timestamps.getD [] := by
  unfold record_operation
  by_cases hpos : fw > 0
  · rw [if_pos hpos]
    simp only []
    split
    · exact ⟨_, alookup_dinsert_self _ _ _, rmu_op_mem _ _ _ _ _⟩
    · cases halo : alookup s.flood_wait_times phone with
      | none =>
        simp only [halo]
        exact ⟨_, alookup_dinsert_self _ _ _, rmu_op_mem _ _ _ _ _⟩
      | some l =>
        simp only [halo]
        exact ⟨_, alookup_dinsert_self _ _ _, rmu_op_mem _ _ _ _ _⟩
  · rw [if_neg hpos]
    exact ⟨_, alookup_dinsert_self _ _ _, rmu_op_mem _ _ _ _ _⟩

/-- C3: whenever `execute_with_priority` obtains a client, the outcome of the
wrapped call — success, the extracted flood-wait seconds, or the raised
exception — is passed to `record_operation` in the `finally` block on both
the normal-return and the raising path: the final state is exactly the
`record_operation`-updated state, and the recorded operation timestamp is in
it, so metrics are never silently lost. -/
theorem c3_exec_records (s : LBState) (purpose : String) (fo : FuncOut)
    (op_type : String) (now : ℚ) (phone : String)
    (hgbc : (get_best_client s purpose now).2 = Except.ok (some phone)) :
    (execute_with_priority s purpose fo op_type now).1 =
        (record_operation (get_best_client s purpose now).1 phone
          (match fo with | .ok => true | .raise _ => false)
          (match fo with | .ok => none | .raise msg => some msg)
          (match fo with | .ok => 0 | .raise msg => extractFloodWait msg)
          op_type now).1 ∧
      ∃ m, alookup (execute_with_priority s purpose fo op_type now).1.session_metrics phone
          = some m ∧ now ∈ m.operation_timestamps.getD [] := by
  unfold execute_with_priority
  cases hg : get_best_client s purpose now with
  | mk s1 r =>
    rw [hg] at hgbc
    simp only [] at hgbc
    subst hgbc
    cases fo with
    | ok =>
      simp only []
      constructor
      · cases hr : record_operation s1 phone true none 0 op_type now with
        | mk s2 rr =>
          cases rr <;> simp
      · cases hr : record_operation s1 phone true none 0 op_type now with
        | mk s2 rr =>
          have hmem := record_op_ts_mem s1 phone true none 0 op_type now
          rw [hr] at hmem
          cases rr <;> simpa using hmem
    | raise msg =>
      simp only []
      constructor
      · cases hr : record_operation s1 phone false (some msg) (extractFloodWait msg) op_type now with
        | mk s2 rr =>
          cases rr <;> simp
      · cases hr : record_operation s1 phone false (some msg) (extractFloodWait msg) op_type now with
        | mk s2 rr =>
          have hmem := record_op_ts_mem s1 phone false (some msg) (extractFloodWait msg) op_type now
          rw [hr] at hmem
          cases rr <;> simpa using hmem

/-- Concrete state for the `c9_detect_zero_ops` witness. -/
def c9w : LBState := { session_metrics := [("q", registerMetrics)] }

theorem c9_detect_zero_ops_witness :
    (alookup c9w.session_metrics "q" = some registerMetrics ∧
        (alookup c9w.flood_wait_times "q").getD [] = []) ∧
      (detect_session_overload c9w "q" 500).2 = false :=
  ⟨⟨rfl, rfl⟩, (c9_detect_zero_ops c9w "q" 500 rfl rfl).1⟩

/-- Concrete state for the `c3_exec_records` witness. -/
def c3w : LBState :=
  { active_clients := ["q"],
    session_metrics := [("q", registerMetrics)],
    sessions := [("general", ⟨["q"], []⟩)],
    last_health_check := 100,
    last_priority_update := 100 }

theorem c3_gbc_eval :
    get_best_client c3w "general" 120 = (c3w, Except.ok (some "q")) := by
  norm_num [get_best_client, c3w, gbcSelect, resolvePool, availLoop, is_in_cooldown,
    combinedScore, bestOf, alookup, registerMetrics]

theorem c3_exec_records_witness :
    (get_best_client c3w "general" 120).2 = Except.ok (some "q") ∧
      ((execute_with_priority c3w "general" (FuncOut.raise "FloodWaitError: 42 seconds")
            "general" 120).1 =
          (record_operation (get_best_client c3w "general" 120).1 "q" false
            (some "FloodWaitError: 42 seconds")
            (extractFloodWait "FloodWaitError: 42 seconds") "general" 120).1 ∧
        ∃ m, alookup (execute_with_priority c3w "general"
            (FuncOut.raise "FloodWaitError: 42 seconds") "general" 120).1.session_metrics "q"
          = some m ∧ (120 : ℚ) ∈ m.operation_timestamps.getD []) := by
  have hg : (get_best_client c3w "general" 120).2 = Except.ok (some "q") := by
    rw [c3_gbc_eval]
  exact ⟨hg, c3_exec_records c3w "general" (FuncOut.raise "FloodWaitError: 42 seconds")
    "general" 120 "q" hg⟩

/-! ### C10: health_score is constant after registration -/

theorem rmu_health (m0 : Metrics) (success : Bool) (error : Option String)
    (op_type : String) (now : ℚ) :
    (recordMetricsUpd m0 success error op_type now).health_score = m0.health_score := by
  unfold recordMetricsUpd
  split <;> rfl

theorem record_metrics_shape (s : LBState) (phone : String) (success : Bool)
    (error : Option String) (fw : ℚ) (op_type : String) (now : ℚ) :
    ∃ X, (record_operation s phone success error fw op_type now).1.session_metrics =
        dinsert s.session_metrics phone X ∧
      X.health_score = ((alookup s.session_metrics phone).getD Metrics.empty).health_score := by
  unfold record_operation
  by_cases hpos : fw > 0
  · rw [if_pos hpos]
    simp only []
    split
    · exact ⟨_, rfl, rmu_health _ _ _ _ _⟩
    · cases halo : alookup s.flood_wait_times phone with
      | none =>
        simp only [halo]
        exact ⟨_, rfl, rmu_health _ _ _ _ _⟩
      | some l =>
        simp only [halo]
        exact ⟨_, rfl, rmu_health _ _ _ _ _⟩
  · rw [if_neg hpos]
    exact ⟨_, rfl, rmu_health _ _ _ _ _⟩

theorem detect_m2_health (c : Prop) [Decidable c] (m1 : Metrics)
    (oh : List OverloadEntry) :
    (if c then { m1 with overload_history := some oh, status := some "overloaded" }
      else m1).health_score = m1.health_score := by
  split <;> rfl

theorem detect_metrics_shape (s : LBState) (phone : String) (now : ℚ) :
    (detect_session_overload s phone now).1.session_metrics = s.session_metrics ∨
    ∃ X mp, alookup s.session_metrics phone = some mp ∧
      (detect_session_overload s phone now).1.session_metrics =
        dinsert s.session_metrics phone X ∧
      X.health_score = mp.health_score := by
  unfold detect_session_overload
  cases hm : alookup s.session_metrics phone with
  | none => exact Or.inl rfl
  | some mp =>
    right
    refine ⟨_, mp, rfl, rfl, ?_⟩
    exact (detect_m2_health _ _ _).trans rfl

theorem coolDown_metrics_shape (s : LBState) (phone et : String) (now jit : ℚ) :
    (applyLBOp s (LBOp.coolDown phone et now jit)).session_metrics = s.session_metrics ∨
    ∃ X mp, alookup s.session_metrics phone = some mp ∧
      (applyLBOp s (LBOp.coolDown phone et now jit)).session_metrics =
        dinsert s.session_metrics phone X ∧
      X.health_score = mp.health_score := by
  unfold applyLBOp
  dsimp only
  cases hc : cool_down_session s phone et now jit with
  | error e => exact Or.inl rfl
  | ok rr =>
    obtain ⟨s1, dur⟩ := rr
    dsimp only
    unfold cool_down_session at hc
    cases hcalc : calculate_adaptive_cooldown s phone et now jit with
    | error e =>
      rw [hcalc] at hc
      cases hc
    | ok rc =>
      obtain ⟨sc, d2⟩ := rc
      rw [hcalc] at hc
      obtain ⟨hmet, -⟩ := calc_state_frame s phone et now jit sc d2 hcalc
      simp only [] at hc
      cases hmm : alookup sc.session_metrics phone with
      | none =>
        rw [hmm] at hc
        simp only [Except.ok.injEq, Prod.mk.injEq] at hc
        left
        rw [← hc.1]
        exact hmet
      | some mp =>
        rw [hmm] at hc
        simp only [Except.ok.injEq, Prod.mk.injEq] at hc
        right
        refine ⟨{ mp with status := some "cooling", cooling_start := some now, cooling_duration := some ((d2 : ℚ)), cooling_end := some (now + (d2 : ℚ)), cooling_reason := some et, consecutive_errors := some 0, successful_ops_since_last_issue := some 0 }, mp, by rw [← hmet]; exact hmm, ?_, rfl⟩
        rw [← hc.1]
        show dinsert sc.session_metrics phone _ = dinsert s.session_metrics phone _
        rw [hmet]

theorem register_metrics_pres (s : LBState) (phone purpose A : String) (prim : Bool)
    (mA : Metrics) (hm : alookup s.session_metrics A = some mA) :
    alookup (register_client s phone purpose prim).session_metrics A = some mA := by
  unfold register_client
  simp only []
  split
  · exact hm
  · next habs =>
    have hne : phone ≠ A := by
      intro hh
      subst hh
      rw [hm] at habs
      simp at habs
    rw [alookup_dinsert_ne _ _ _ _ (fun hh => hne hh.symm)]
    exact hm

theorem register_keys_nodup (s : LBState) (phone purpose : String) (prim : Bool)
    (hnd : (s.session_metrics.map Prod.fst).Nodup) :
    ((register_client s phone purpose prim).session_metrics.map Prod.fst).Nodup := by
  unfold register_client
  simp only []
  split
  · exact hnd
  · exact nodup_keys_dinsert _ _ _ hnd

theorem applyLBOp_health (s : LBState) (op : LBOp) (A : String) (mA : Metrics)
    (hnodup : (s.session_metrics.map Prod.fst).Nodup)
    (hm : alookup s.session_metrics A = some mA) :
    (∃ m2, alookup (applyLBOp s op).session_metrics A = some m2 ∧
        m2.health_score = mA.health_score) ∧
      ((applyLBOp s op).session_metrics.map Prod.fst).Nodup := by
  cases op with
  | record phone success error fw op_type now =>
    obtain ⟨X, hshape, hX⟩ := record_metrics_shape s phone success error fw op_type now
    show (∃ m2, alookup (record_operation s phone success error fw op_type now).1.session_metrics A = some m2 ∧ m2.health_score = mA.health_score) ∧ (((record_operation s phone success error fw op_type now).1.session_metrics.map Prod.fst).Nodup)
    rw [hshape]
    refine ⟨?_, nodup_keys_dinsert _ _ _ hnodup⟩
    by_cases hpA : phone = A
    · subst hpA
      refine ⟨X, alookup_dinsert_self _ _ _, ?_⟩
      rw [hX, hm]
      rfl
    · rw [alookup_dinsert_ne _ _ _ _ (fun hh => hpA hh.symm)]
      exact ⟨mA, hm, rfl⟩
  | detect phone now =>
    rcases detect_metrics_shape s phone now with h | ⟨X, mp, hmp, hshape, hX⟩
    · show (∃ m2, alookup (detect_session_overload s phone now).1.session_metrics A = some m2 ∧ m2.health_score = mA.health_score) ∧ (((detect_session_overload s phone now).1.session_metrics.map Prod.fst).Nodup)
      rw [h]
      exact ⟨⟨mA, hm, rfl⟩, hnodup⟩
    · show (∃ m2, alookup (detect_session_overload s phone now).1.session_metrics A = some m2 ∧ m2.health_score = mA.health_score) ∧ (((detect_session_overload s phone now).1.session_metrics.map Prod.fst).Nodup)
      rw [hshape]
      refine ⟨?_, nodup_keys_dinsert _ _ _ hnodup⟩
      by_cases hpA : phone = A
      · subst hpA
        refine ⟨X, alookup_dinsert_self _ _ _, ?_⟩
        rw [hm] at hmp
        cases hmp
        exact hX
      · rw [alookup_dinsert_ne _ _ _ _ (fun hh => hpA hh.symm)]
        exact ⟨mA, hm, rfl⟩
  | coolDown phone et now jit =>
    rcases coolDown_metrics_shape s phone et now jit with h | ⟨X, mp, hmp, hshape, hX⟩
    · rw [h]
      exact ⟨⟨mA, hm, rfl⟩, hnodup⟩
    · rw [hshape]
      refine ⟨?_, nodup_keys_dinsert _ _ _ hnodup⟩
      by_cases hpA : phone = A
      · subst hpA
        refine ⟨X, alookup_dinsert_self _ _ _, ?_⟩
        rw [hm] at hmp
        cases hmp
        exact hX
      · rw [alookup_dinsert_ne _ _ _ _ (fun hh => hpA hh.symm)]
        exact ⟨mA, hm, rfl⟩
  | updatePriorities now =>
    have hproj : (alookup (update_session_priorities s now).session_metrics A).map
        (fun m => (m.health_score, m.status)) =
        (alookup s.session_metrics A).map (fun m => (m.health_score, m.status)) := by
      unfold update_session_priorities
      exact upd_fold_metrics_proj now A s.session_metrics s hnodup
        (fun m hmem => alookup_of_mem_nodup _ _ _ hnodup hmem)
    have hnd2 : ((update_session_priorities s now).session_metrics.map Prod.fst).Nodup := by
      unfold update_session_priorities
      exact upd_fold_metrics_nodup now s.session_metrics s hnodup
    rw [hm] at hproj
    show (∃ m2, alookup (update_session_priorities s now).session_metrics A = some m2 ∧ m2.health_score = mA.health_score) ∧ (((update_session_priorities s now).session_metrics.map Prod.fst).Nodup)
    refine ⟨?_, hnd2⟩
    cases hm2 : alookup (update_session_priorities s now).session_metrics A with
    | none =>
      rw [hm2] at hproj
      cases hproj
    | some m2 =>
      rw [hm2] at hproj
      simp only [Option.map_some', Option.some.injEq, Prod.mk.injEq] at hproj
      exact ⟨m2, rfl, hproj.1⟩
  | register phone purpose prim =>
    show (∃ m2, alookup (register_client s phone purpose prim).session_metrics A = some m2 ∧ m2.health_score = mA.health_score) ∧ (((register_client s phone purpose prim).session_metrics.map Prod.fst).Nodup)
    exact ⟨⟨mA, register_metrics_pres s phone purpose A prim mA hm, rfl⟩,
      register_keys_nodup s phone purpose prim hnodup⟩

theorem foldLBOps_health :
    ∀ (ops : List LBOp) (s : LBState) (A : String) (mA : Metrics),
      (s.session_metrics.map Prod.fst).Nodup →
      alookup s.session_metrics A = some mA →
      ∃ m2, alookup (ops.foldl applyLBOp s).session_metrics A = some m2 ∧
        m2.health_score = mA.health_score := by
  intro ops
  induction ops with
  | nil =>
    intro s A mA _ hm
    exact ⟨mA, hm, rfl⟩
  | cons op rest ih =>
    intro s A mA hnd hm
    rw [List.foldl_cons]
    obtain ⟨⟨m2, hm2, hh2⟩, hnd2⟩ := applyLBOp_health s op A mA hnd hm
    obtain ⟨m3, hm3, hh3⟩ := ih (applyLBOp s op) A m2 hnd2 hm2
    exact ⟨m3, hm3, hh3.trans hh2⟩

/-- A freshly registered client's metrics entry is `registerMetrics`. -/
theorem register_fresh_metrics (s : LBState) (phone purpose : String) (prim : Bool)
    (hfresh : alookup s.session_metrics phone = none) :
    alookup (register_client s phone purpose prim).session_metrics phone =
      some registerMetrics := by
  unfold register_client
  simp only []
  rw [if_neg]
  · exact alookup_dinsert_self _ _ _
  · simp [hfresh]

/-- C10: `register_client` installs `health_score = 1.0` for a fresh session,
and no subsequent sequence of operations (`record_operation`,
`detect_session_overload`, `cool_down_session`, `update_session_priorities`,
further registrations) ever modifies it: in every reachable state the session
still has a metrics entry with `health_score = 1`, so the combined score used
by the purpose-keyed `get_best_client` equals the session's priority for a
primary-pool candidate and priority × 0.9 for a backup-pool candidate. -/
theorem c10_health_invariant (s0 : LBState) (A purpose : String) (prim : Bool)
    (ops : List LBOp)
    (hnd : (s0.session_metrics.map Prod.fst).Nodup)
    (hfresh : alookup s0.session_metrics A = none) :
    ∃ m2,
      alookup (ops.foldl applyLBOp (register_client s0 A purpose prim)).session_metrics A
          = some m2 ∧
      m2.health_score = some 1 ∧
      combinedScore (ops.foldl applyLBOp (register_client s0 A purpose prim)) A false
        = ((priorityGet (ops.foldl applyLBOp (register_client s0 A purpose prim)) A : ℚ)) ∧
      combinedScore (ops.foldl applyLBOp (register_client s0 A purpose prim)) A true
        = ((priorityGet (ops.foldl applyLBOp (register_client s0 A purpose prim)) A : ℚ)) * (9/10) := by
  have hreg := register_fresh_metrics s0 A purpose prim hfresh
  have hnd1 : ((register_client s0 A purpose prim).session_metrics.map Prod.fst).Nodup :=
    register_keys_nodup s0 A purpose prim hnd
  obtain ⟨m2, hm2, hh2⟩ :=
    foldLBOps_health ops (register_client s0 A purpose prim) A registerMetrics hnd1 hreg
  have hh1 : m2.health_score = some 1 := hh2
  refine ⟨m2, hm2, hh1, ?_, ?_⟩
  · unfold combinedScore priorityGet
    simp only []
    rw [hm2]
    simp only []
    rw [hh1]
    simp only [Option.getD_some, if_neg Bool.false_ne_true, mul_one]
  · unfold combinedScore priorityGet
    simp only []
    rw [hm2]
    simp only []
    rw [hh1]
    simp only [Option.getD_some, if_true, mul_one]

def c10s : LBState := {}

theorem c10_health_invariant_witness :
    ((c10s.session_metrics.map Prod.fst).Nodup ∧
      alookup c10s.session_metrics "a" = none) ∧
    (∃ m2,
      alookup (([LBOp.detect "a" 50, LBOp.updatePriorities 100].foldl applyLBOp
          (register_client c10s "a" "general" true)).session_metrics) "a" = some m2 ∧
      m2.health_score = some 1 ∧
      combinedScore ([LBOp.detect "a" 50, LBOp.updatePriorities 100].foldl applyLBOp
          (register_client c10s "a" "general" true)) "a" false
        = ((priorityGet ([LBOp.detect "a" 50, LBOp.updatePriorities 100].foldl applyLBOp
          (register_client c10s "a" "general" true)) "a" : ℚ)) ∧
      combinedScore ([LBOp.detect "a" 50, LBOp.updatePriorities 100].foldl applyLBOp
          (register_client c10s "a" "general" true)) "a" true
        = ((priorityGet ([LBOp.detect "a" 50, LBOp.updatePriorities 100].foldl applyLBOp
          (register_client c10s "a" "general" true)) "a" : ℚ)) * (9/10)) :=
  ⟨⟨by decide, rfl⟩,
    c10_health_invariant c10s "a" "general" true
      [LBOp.detect "a" 50, LBOp.updatePriorities 100] (by decide) rfl⟩
